import Mathlib

/-!
Shallow embedding of `rpi-wps.py`, a single-file UART pressure logger:
parsing of sensor lines, minute-bucketed aggregation, daily rotation,
multi-destination persistence and the main loop's shutdown behaviour.

Modelling conventions:
* Python floats are idealised as exact rationals plus the special values
  `inf`, `-inf`, `nan` that `float(...)` can produce (`PyFloat`).
* The wall clock, the serial line, write failures and the operator's
  interrupt are inputs, supplied per loop iteration (`Tick` / `Event`).
* File contents are typed rows rather than rendered text.
-/

namespace RpiWps

attribute [local semireducible] Rat.mul Rat.add Rat.inv Rat.sub

/-- Lexicographic comparison of character lists by code point — the order
Python uses to compare strings. -/
def lexLeList : List Char → List Char → Bool
  | [], _ => true
  | _ :: _, [] => false
  | a :: as, b :: bs =>
    if a < b then true
    else if b < a then false
    else lexLeList as bs

/-- Python's `<=` on strings: lexicographic by code point. -/
def lexLe (a b : String) : Prop := lexLeList a.toList b.toList = true

instance : DecidableRel lexLe :=
  fun a b => inferInstanceAs (Decidable (lexLeList a.toList b.toList = true))

/-- Python's `str.startswith`: a prefix test. -/
def strStartsWith (s pre : String) : Bool := pre.toList.isPrefixOf s.toList

/-- A Python float as modelled here: an exact rational for the finite case
(real-number idealisation of binary64), plus the special values that
`float(...)` can produce. -/
inductive PyFloat
  | finite (q : ℚ)
  | inf
  | ninf
  | nan
deriving DecidableEq

/-- Python float addition, as used by `sum(pressures)`: `nan` is absorbing,
opposite infinities give `nan`, an infinity otherwise dominates. -/
def PyFloat.add : PyFloat → PyFloat → PyFloat
  | .nan, _ => .nan
  | _, .nan => .nan
  | .inf, .ninf => .nan
  | .ninf, .inf => .nan
  | .inf, _ => .inf
  | _, .inf => .inf
  | .ninf, _ => .ninf
  | _, .ninf => .ninf
  | .finite a, .finite b => .finite (a + b)

/-- Python float division by a positive integer (`sum(...) / len(...)`):
specials pass through, finite values divide exactly. -/
def PyFloat.divNat : PyFloat → Nat → PyFloat
  | .finite q, n => .finite (q / (n : ℚ))
  | x, _ => x

/-- Round a rational to the nearest integer, ties to the even neighbour
(the rounding Python's `round` documents for floats, idealised over ℚ). -/
def roundHalfEven (q : ℚ) : ℤ :=
  let n := ⌊q⌋
  let frac := q - (n : ℚ)
  if frac < 1 / 2 then n
  else if 1 / 2 < frac then n + 1
  else if n % 2 = 0 then n else n + 1

/-- `round(x, 3)` from line 122 of the source: specials pass through,
finite values are rounded to 3 decimal digits, ties to even. -/
def pyRound3 : PyFloat → PyFloat
  | .finite q => .finite ((roundHalfEven (q * 1000) : ℚ) / 1000)
  | x => x

/-- `sum(pressures)` from line 120: Python's `sum` left-folds `+` from `0`. -/
def pySum (vs : List PyFloat) : PyFloat := vs.foldl PyFloat.add (.finite 0)

/-! ### The CPython `float(...)` conversion, embedding `is_float` (lines 25-31) -/

/-- Whitespace stripped by CPython's float conversion (ASCII range). -/
def isPySpace (c : Char) : Bool :=
  c = ' ' || c = '\t' || c = '\n' || c = '\r' || c = '\x0b' || c = '\x0c'

/-- Strip leading and trailing whitespace, as `float(...)` does. -/
def stripPySpaces (cs : List Char) : List Char :=
  ((cs.dropWhile isPySpace).reverse.dropWhile isPySpace).reverse

/-- Greedily consume a run of digits in which a single underscore may stand
between two digits (CPython's digit-group syntax); returns the digits with
underscores removed, and the unconsumed remainder. -/
def munchDigitTail : List Char → List Char × List Char
  | '_' :: rest =>
    match rest with
    | d :: rest' =>
      if d.isDigit then
        let p := munchDigitTail rest'
        (d :: p.1, p.2)
      else ([], '_' :: d :: rest')
    | [] => ([], ['_'])
  | c :: rest =>
    if c.isDigit then
      let p := munchDigitTail rest
      (c :: p.1, p.2)
    else ([], c :: rest)
  | [] => ([], [])

/-- Numeric value of a run of decimal digits. -/
def digitsVal (ds : List Char) : Nat :=
  ds.foldl (fun n c => 10 * n + (c.toNat - 48)) 0

/-- Parse an optional exponent clause `("e"|"E") sign? digits`; returns the
exponent (0 when absent) and the remainder, or `none` when an `e` is present
but not followed by a valid digit run. -/
def parseExpClause (cs : List Char) : Option (Int × List Char) :=
  match cs with
  | c :: r =>
    if c = 'e' || c = 'E' then
      let sr : Int × List Char :=
        match r with
        | '+' :: rr => (1, rr)
        | '-' :: rr => (-1, rr)
        | _ => (1, r)
      match sr.2 with
      | d :: _ =>
        if d.isDigit then
          let p := munchDigitTail sr.2
          some (sr.1 * (digitsVal p.1 : Int), p.2)
        else none
      | [] => none
    else some (0, cs)
  | [] => some (0, [])

/-- Parse an unsigned CPython float numeral `digits [. digits] [exp]` or
`. digits [exp]` (with underscore digit groups) to its exact rational value;
`none` when the characters are not exactly such a numeral. -/
def parseNumber (cs : List Char) : Option ℚ :=
  let ip : List Char × List Char :=
    match cs with
    | c :: _ => if c.isDigit then munchDigitTail cs else ([], cs)
    | [] => ([], [])
  let fp : List Char × List Char :=
    match ip.2 with
    | '.' :: r =>
      (match r with
       | c :: _ =>
         if c.isDigit then munchDigitTail r
         else ([], r)
       | [] => ([], []))
    | _ => ([], ip.2)
  let rest2 : List Char :=
    match ip.2 with
    | '.' :: _ => fp.2
    | _ => ip.2
  if ip.1.isEmpty && fp.1.isEmpty then none
  else
    match parseExpClause rest2 with
    | some er =>
      if er.2.isEmpty then
        let mantissa : ℚ := (digitsVal ip.1 : ℚ) + (digitsVal fp.1 : ℚ) / ((10 : ℚ) ^ fp.1.length)
        some (if 0 ≤ er.1 then mantissa * (10 : ℚ) ^ er.1.toNat
              else mantissa / (10 : ℚ) ^ (-er.1).toNat)
      else none
    | none => none

/-- CPython's `float(string)` conversion (over ASCII input): strip whitespace,
an optional sign, then either `inf`/`infinity`/`nan` case-insensitively or a
decimal numeral with optional fraction, exponent and underscore digit groups.
Returns `none` exactly when `float(...)` raises `ValueError`. -/
def pyFloatOfString (s : String) : Option PyFloat :=
  let cs := stripPySpaces s.toList
  let sb : Bool × List Char :=
    match cs with
    | '+' :: r => (false, r)
    | '-' :: r => (true, r)
    | _ => (false, cs)
  let low := sb.2.map Char.toLower
  if low = "inf".toList || low = "infinity".toList then
    some (if sb.1 then .ninf else .inf)
  else if low = "nan".toList then some .nan
  else
    match parseNumber sb.2 with
    | some q => some (.finite (if sb.1 then -q else q))
    | none => none

/-- `is_float` (lines 25-31): whether `float(value)` succeeds. -/
def is_float (value : String) : Bool := (pyFloatOfString value).isSome

/-- `process_sensor_data` (lines 144-156): accept `P=<value>` where the
remainder converts as a float; on success the reading's timestamp is the
current wall-clock string `now`, never taken from the line. -/
def process_sensor_data (line : String) (now : String) : Option (String × PyFloat) :=
  if strStartsWith line "P=" then
    let value_str := line.drop 2
    if is_float value_str then some (now, (pyFloatOfString value_str).getD .nan)
    else none
  else none

/-- Modelled from the spec: "The remainder must be parseable as a finite
decimal number (integer or fractional, optional sign)" — an optional sign
followed by decimal digits with at most one decimal point and at least one
digit. -/
def specFiniteDecimal (s : String) : Bool :=
  let cs := s.toList
  let body : List Char :=
    match cs with
    | '+' :: r => r
    | '-' :: r => r
    | _ => cs
  body.all (fun c => c.isDigit || c = '.') && body.count '.' ≤ 1 && body.any Char.isDigit

/-! ### Minute aggregation (`update_minute_averages_table`, lines 89-138) -/

/-- Lines 95-99: read the raw table (columns A-B from row 2 down), skipping
any row with a missing timestamp or value. -/
def readRawData (rows : List (Option String × Option PyFloat)) : List (String × PyFloat) :=
  rows.filterMap fun r =>
    match r with
    | (some ts, some v) => some (ts, v)
    | _ => none

/-- One step of `grouped[minute_str].append(pressure)` on an insertion-ordered
dictionary (Python dicts preserve insertion order): append `v` to the entry
for `k`, or add a new entry at the end. -/
def insertGrouped (g : List (String × List PyFloat)) (k : String) (v : PyFloat) :
    List (String × List PyFloat) :=
  match g with
  | [] => [(k, [v])]
  | e :: rest =>
    if e.1 = k then (e.1, e.2 ++ [v]) :: rest
    else e :: insertGrouped rest k v

/-- Lines 104-109: group the raw values by the first 16 characters of the
timestamp string. -/
def groupByMinute (raw : List (String × PyFloat)) : List (String × List PyFloat) :=
  raw.foldl (fun g r => insertGrouped g (r.1.take 16) r.2) []

/-- The list of values grouped under key `k` (`[]` when `k` is absent); the
reading of a Python dictionary used in the analysis below. -/
def valsOf (g : List (String × List PyFloat)) (k : String) : List PyFloat :=
  ((g.find? fun e => decide (e.1 = k)).map (·.2)).getD []

/-- Ordering used by `sorted(grouped.items())`: Python compares the tuples
lexicographically, and since the dictionary's keys are distinct the
comparison is decided by the minute key. -/
def itemLe (a b : String × List PyFloat) : Prop := lexLe a.1 b.1

instance : DecidableRel itemLe := fun a b => inferInstanceAs (Decidable (lexLe a.1 b.1))

/-- `sorted(...)` modelled by insertion sort; any stable sort yields the same
list, and the keys here are distinct so stability is not even needed. -/
def sortedItems (g : List (String × List PyFloat)) : List (String × List PyFloat) :=
  g.insertionSort itemLe

/-- Lines 119-120: the per-minute average, `round(sum(ps) / len(ps), 3)`. -/
def avgOf (vs : List PyFloat) : PyFloat := pyRound3 ((pySum vs).divNat vs.length)

/-- The minute-averages rows computed by lines 104-123: group by minute key,
sort by key, and average each group. -/
def minuteAveragesOf (raw : List (String × PyFloat)) : List (String × PyFloat) :=
  (sortedItems (groupByMinute raw)).map fun e => (e.1, avgOf e.2)

/-- The aggregation as the spec words it: one row per distinct minute key
(the first 16 characters of the timestamp string), carrying the arithmetic
mean of the group's values rounded to 3 decimal digits, the rows sorted
ascending by minute key in lexicographic string order. -/
def specAggregate (raw : List (String × PyFloat)) : List (String × PyFloat) :=
  (((raw.map fun r => r.1.take 16).dedup).insertionSort lexLe).map fun k =>
    (k, avgOf ((raw.filter fun r => decide (r.1.take 16 = k)).map Prod.snd))

/-- A chart object as configured at lines 129-138. -/
structure Chart where
  title : String
  xTitle : String
  yTitle : String
  anchor : String
  dataMinCol : Nat
  dataMinRow : Nat
  dataMaxRow : Nat
  catsMinCol : Nat
  catsMinRow : Nat
  catsMaxRow : Nat
deriving DecidableEq

/-- The chart built for `n` minute-average rows: values from column E rows
1..n+1 (`titles_from_data`), labels from column D rows 2..n+1, anchored at G2. -/
def makeChart (n : Nat) : Chart :=
  { title := "Average Pressure per Minute"
    xTitle := "Minute"
    yTitle := "Pressure (bar)"
    anchor := "G2"
    dataMinCol := 5
    dataMinRow := 1
    dataMaxRow := n + 1
    catsMinCol := 4
    catsMinRow := 2
    catsMaxRow := n + 1 }

/-- The data sheet of the workbook: the raw table (columns A-B, rows 2 down),
the derived minute-average block (columns D-E, rows 2 down, indexed in step
with the raw rows) and the chart objects. The header row 1 is constant and
left implicit. In every state the program reaches, the derived block is never
longer than the raw table, so `ws.append` lands right after the raw rows. -/
structure Worksheet where
  rawRows : List (Option String × Option PyFloat)
  derivedRows : List (Option String × Option PyFloat)
  charts : List Chart
deriving DecidableEq

/-- `ws.max_row`: openpyxl counts every materialised cell, including cells
assigned `None` by the clearing loop. -/
def Worksheet.maxRow (ws : Worksheet) : Nat :=
  1 + max ws.rawRows.length ws.derivedRows.length

/-- `ws.append((timestamp, value))`: one new raw row after the current last row. -/
def Worksheet.appendRow (ws : Worksheet) (r : String × PyFloat) : Worksheet :=
  { ws with rawRows := ws.rawRows ++ [(some r.1, some r.2)] }

/-- `for r in readings_buffer: ws.append(r)`. -/
def Worksheet.appendRows (ws : Worksheet) (rs : List (String × PyFloat)) : Worksheet :=
  rs.foldl Worksheet.appendRow ws

/-- `update_minute_averages_table` (lines 89-138): read the raw table; if it
has no complete row, return at line 102 leaving the sheet untouched.
Otherwise clear columns D-E up to `max_row`, write the sorted minute averages
from row 2 down, drop every existing chart and add the one new chart. -/
def update_minute_averages_table (ws : Worksheet) : Worksheet :=
  let raw_data := readRawData ws.rawRows
  if raw_data.isEmpty then ws
  else
    let avgs := minuteAveragesOf raw_data
    let cleared : List (Option String × Option PyFloat) :=
      List.replicate (ws.maxRow - 1) (none, none)
    { rawRows := ws.rawRows
      derivedRows := (avgs.map fun a => (some a.1, some a.2)) ++ cleared.drop avgs.length
      charts := [makeChart avgs.length] }

/-! ### Files on disk (`initialize_csv`, `append_csv`, `initialize_excel`,
`load_workbook`, `wb.save`; lines 56-87) -/

/-- A raw CSV data row (the header row is implicit in the file's existence). -/
abbrev CsvRow := String × PyFloat

/-- The files the program can touch: CSV files as their data rows, workbook
files as their saved data sheet. A path absent from a list does not exist. -/
structure Disk where
  csvFiles : List (String × List CsvRow)
  xlsxFiles : List (String × Worksheet)
deriving DecidableEq

/-- Look a path up in a file table. -/
def lookupFile {α : Type} (files : List (String × α)) (p : String) : Option α :=
  (files.find? fun e => decide (e.1 = p)).map (·.2)

/-- Write a path's content in a file table, creating the entry if absent. -/
def setFile {α : Type} (files : List (String × α)) (p : String) (v : α) :
    List (String × α) :=
  match files with
  | [] => [(p, v)]
  | e :: rest => if e.1 = p then (p, v) :: rest else e :: setFile rest p v

/-- The data rows of the CSV file at `p` (`[]` when the file does not exist). -/
def Disk.csvAt (d : Disk) (p : String) : List CsvRow := (lookupFile d.csvFiles p).getD []

/-- Whether the CSV file at `p` exists. -/
def Disk.csvExists (d : Disk) (p : String) : Bool := (lookupFile d.csvFiles p).isSome

/-- The saved workbook at `p`, when one exists. -/
def Disk.xlsxAt (d : Disk) (p : String) : Option Worksheet := lookupFile d.xlsxFiles p

/-- `initialize_csv` (lines 76-81): create the file with its header row only
if it does not already exist; never truncate. -/
def initialize_csv (d : Disk) (p : String) : Disk :=
  if (lookupFile d.csvFiles p).isSome then d
  else { d with csvFiles := setFile d.csvFiles p [] }

/-- `append_csv` (lines 83-87): open in append mode (creating if missing) and
append the rows. -/
def append_csv (d : Disk) (p : String) (rows : List CsvRow) : Disk :=
  { d with csvFiles := setFile d.csvFiles p ((lookupFile d.csvFiles p).getD [] ++ rows) }

/-- A freshly created workbook (lines 56-68): headers only, no data rows, no
chart. -/
def emptyWorksheet : Worksheet := { rawRows := [], derivedRows := [], charts := [] }

/-- `initialize_excel` (lines 56-68): create the workbook only if the path
does not already exist. -/
def initialize_excel (d : Disk) (p : String) : Disk :=
  if (lookupFile d.xlsxFiles p).isSome then d
  else { d with xlsxFiles := setFile d.xlsxFiles p emptyWorksheet }

/-- `wb.save(path)`: write the in-memory sheet over the file at `path`. -/
def save_excel (d : Disk) (p : String) (ws : Worksheet) : Disk :=
  { d with xlsxFiles := setFile d.xlsxFiles p ws }

/-- `load_excel` (lines 70-74): read the sheet back from disk (the program
only loads paths it has initialised, so the default is unreachable). -/
def load_excel (d : Disk) (p : String) : Worksheet :=
  (lookupFile d.xlsxFiles p).getD emptyWorksheet

/-! ### Destination resolution (`get_usb_mount_point`, `get_output_paths`,
lines 33-54) -/

/-- The state of `/media/pi` as the OS reports it: whether the base directory
exists and is a directory, and its entries in iteration order
(`Path.iterdir`), each with its `is_dir` flag. -/
structure MediaFS where
  baseExists : Bool
  baseIsDir : Bool
  entries : List (String × Bool)
deriving DecidableEq

/-- `get_usb_mount_point` (lines 33-40): the first directory entry under
`/media/pi` in iteration order, or `None`. -/
def get_usb_mount_point (fs : MediaFS) : Option String :=
  if fs.baseExists && fs.baseIsDir then
    (fs.entries.find? fun e => e.2).map fun e => "/media/pi/" ++ e.1
  else none

/-- `get_daily_filename` (lines 42-45). -/
def get_daily_filename (date ext : String) : String :=
  "pressure_" ++ date ++ "." ++ ext

/-- `get_output_paths` (lines 47-54): the primary path under the working
directory, plus the USB mirror when a mount point is found. -/
def get_output_paths (fs : MediaFS) (cwd date ext : String) : List String :=
  let filename := get_daily_filename date ext
  match get_usb_mount_point fs with
  | some m => [cwd ++ "/" ++ filename, m ++ "/" ++ filename]
  | none => [cwd ++ "/" ++ filename]

/-- Modelled from the spec: "pick exactly one (documented tie-break, e.g.
first in sorted iteration order)" — the candidate mount whose name comes
first in sorted order. -/
def spec_usb_choice (fs : MediaFS) : Option String :=
  if fs.baseExists && fs.baseIsDir then
    (((fs.entries.filter fun e => e.2).map Prod.fst).insertionSort lexLe).head?.map
      fun n => "/media/pi/" ++ n
  else none

/-! ### The main loop (`main`, lines 162-245) -/

/-- The mutable state of `main`: the tracked day, the resolved destination
lists, the in-memory sheet `ws`, the readings buffer, the files on disk, the
serial handle and the log. -/
structure LoopState where
  currentDate : String
  excelPaths : List String
  csvPaths : List String
  ws : Worksheet
  buffer : List (String × PyFloat)
  disk : Disk
  serialOpen : Bool
  log : List String
deriving DecidableEq

/-- The environment of one loop iteration: what `time.strftime` returns for
the date and for a reading's timestamp, the line the serial read yields, the
save-interval test at line 217, the state of `/media/pi`, and which physical
writes fail (raise) during this iteration. -/
structure Tick where
  date : String
  line : String
  now : String
  flushDue : Bool
  fsMedia : MediaFS
  failExcelSave : String → Bool
  failCsvWrite : String → Bool

/-- `for path in excel_paths: wb.save(path)`: save to each path in order; the
first failing save raises, leaving later paths unattempted. -/
def saveExcelSeq (d : Disk) (paths : List String) (ws : Worksheet)
    (failE : String → Bool) : Disk × Option String :=
  match paths with
  | [] => (d, none)
  | p :: rest =>
    if failE p then (d, some p)
    else saveExcelSeq (save_excel d p ws) rest ws failE

/-- `for path in csv_paths: append_csv(path, readings_buffer)`: append to
each path in order; the first failing write raises. -/
def appendCsvSeq (d : Disk) (paths : List String) (rows : List CsvRow)
    (failC : String → Bool) : Disk × Option String :=
  match paths with
  | [] => (d, none)
  | p :: rest =>
    if failC p then (d, some p)
    else appendCsvSeq (append_csv d p rows) rest rows failC

/-- The write sequence shared by lines 189-195, 218-224 and 237-243: append
the buffered readings to the sheet, recompute the minute-average table, save
the workbook to every excel path, then append the readings to every csv
path. Returns the failing path when a write raises. -/
def writeOut (s : LoopState) (failE failC : String → Bool) : LoopState × Option String :=
  let ws2 := update_minute_averages_table (s.ws.appendRows s.buffer)
  let er := saveExcelSeq s.disk s.excelPaths ws2 failE
  if er.2.isSome then ({ s with ws := ws2, disk := er.1 }, er.2)
  else
    let cr := appendCsvSeq er.1 s.csvPaths s.buffer failC
    ({ s with ws := ws2, disk := cr.1 }, cr.2)

/-- A flush inside the loop (lines 188-196 and 217-227): the write sequence
followed by `readings_buffer.clear()`, which is reached only when every
write succeeded. -/
def flushAttempt (s : LoopState) (failE failC : String → Bool) :
    LoopState × Option String :=
  let r := writeOut s failE failC
  if r.2.isSome then r
  else ({ r.1 with buffer := [] }, none)

/-- Lines 198-205, run after the outgoing-day flush `fl` (which aborts the
iteration when it raised): re-resolve both path lists for the new date,
initialise the new files without overwriting, and load the sheet from the
new primary workbook. -/
def rotateFinish (cwd : String) (t : Tick) (fl : LoopState × Option String) :
    LoopState × Option String :=
  if fl.2.isSome then fl
  else
    ({ fl.1 with
        currentDate := t.date
        excelPaths := get_output_paths t.fsMedia cwd t.date "xlsx"
        csvPaths := get_output_paths t.fsMedia cwd t.date "csv"
        disk :=
          (get_output_paths t.fsMedia cwd t.date "csv").foldl initialize_csv
            ((get_output_paths t.fsMedia cwd t.date "xlsx").foldl initialize_excel
              fl.1.disk)
        ws :=
          load_excel
            ((get_output_paths t.fsMedia cwd t.date "csv").foldl initialize_csv
              ((get_output_paths t.fsMedia cwd t.date "xlsx").foldl initialize_excel
                fl.1.disk))
            ((get_output_paths t.fsMedia cwd t.date "xlsx").headD "") }, none)

/-- The daily-rotation check (lines 182-205): on a date change, flush the
buffer (only when non-empty) against the still-current destinations, then
switch to the new day's files. -/
def rotateStep (cwd : String) (s : LoopState) (t : Tick) : LoopState × Option String :=
  if t.date ≠ s.currentDate then
    rotateFinish cwd t
      (if s.buffer.isEmpty then (s, none)
       else flushAttempt s t.failExcelSave t.failCsvWrite)
  else (s, none)

/-- Lines 207-215: the serial read and parse — append a valid reading to the
buffer, log a warning for an invalid line, do nothing on a timeout. -/
def readStep (t : Tick) (s1 : LoopState) : LoopState :=
  if t.line ≠ "" then
    match process_sensor_data t.line t.now with
    | some rd => { s1 with buffer := s1.buffer ++ [rd] }
    | none => { s1 with log := s1.log ++ ["Invalid data: " ++ t.line] }
  else s1

/-- Lines 217-227: the interval-gated flush, skipped while the buffer is
empty. -/
def timedFlush (t : Tick) (s2 : LoopState) : LoopState × Option String :=
  if t.flushDue && !s2.buffer.isEmpty then flushAttempt s2 t.failExcelSave t.failCsvWrite
  else (s2, none)

/-- One iteration of the `while True` body (lines 181-229): rotation check,
serial read and parse, then the interval-gated flush; a write that raised
aborts the iteration, carrying the failing path in the second component. -/
def iterate (cwd : String) (s : LoopState) (t : Tick) : LoopState × Option String :=
  if (rotateStep cwd s t).2.isSome then rotateStep cwd s t
  else timedFlush t (readStep t (rotateStep cwd s t).1)

/-- What ends the run, as seen from the handlers at lines 231-234: nothing
yet (the loop is still running), the operator's `KeyboardInterrupt`, or any
other exception. -/
inductive StopReason
  | running
  | interrupted
  | faulted
deriving DecidableEq

/-- One observable event at an iteration boundary of the `while True` loop:
a normal iteration with its environment, a `KeyboardInterrupt`, or some
other exception raised during what would have been this iteration. -/
inductive Event
  | tick (t : Tick)
  | interrupt
  | exn

/-- The `while True` loop under the `try` (lines 180-229): iterations run in
sequence; a `KeyboardInterrupt` or any other exception leaves the loop at
once — there is no handler inside the loop body — and a write failure during
an iteration likewise propagates out of the loop. -/
def runLoop (cwd : String) : LoopState → List Event → LoopState × StopReason
  | s, [] => (s, StopReason.running)
  | s, Event.interrupt :: _ => (s, StopReason.interrupted)
  | s, Event.exn :: _ => (s, StopReason.faulted)
  | s, Event.tick t :: rest =>
    let r := iterate cwd s t
    if r.2.isSome then (r.1, StopReason.faulted)
    else runLoop cwd r.1 rest

/-- The `finally` block (lines 235-245): when the buffer is non-empty, run
the write sequence once (without clearing); a write failure inside `finally`
propagates, so `ser.close()` at line 245 is reached only when every write
succeeded (or the buffer was empty). -/
def finallyBlock (s : LoopState) (failE failC : String → Bool) : LoopState :=
  if s.buffer.isEmpty then { s with serialOpen := false }
  else
    let r := writeOut s failE failC
    if r.2.isSome then r.1
    else
      { r.1 with
          log := r.1.log ++ ["Saved readings before exit"]
          serialOpen := false }

/-- A whole run's inputs: the working directory, the date at startup, the
state of `/media/pi` at startup, the files already on disk, the iteration
events, and which writes fail during the shutdown flush. -/
structure Env where
  cwd : String
  startDate : String
  fsMedia0 : MediaFS
  disk0 : Disk
  events : List Event
  shutFailExcel : String → Bool
  shutFailCsv : String → Bool

/-- Startup (lines 166-177): resolve today's paths, initialise the stores
without overwriting, load the sheet from the primary workbook, open the
serial port, start with an empty buffer. -/
def initState (env : Env) : LoopState :=
  let excelPaths := get_output_paths env.fsMedia0 env.cwd env.startDate "xlsx"
  let csvPaths := get_output_paths env.fsMedia0 env.cwd env.startDate "csv"
  let d1 := excelPaths.foldl initialize_excel env.disk0
  let d2 := csvPaths.foldl initialize_csv d1
  { currentDate := env.startDate
    excelPaths := excelPaths
    csvPaths := csvPaths
    ws := load_excel d2 (excelPaths.headD "")
    buffer := []
    disk := d2
    serialOpen := true
    log := [] }

/-- `main` (lines 162-245): run the loop; on `KeyboardInterrupt` or any other
exception, log it and run the `finally` block. A run whose events are
exhausted is still inside the loop, so no cleanup has happened yet. -/
def mainRun (env : Env) : LoopState × StopReason :=
  match runLoop env.cwd (initState env) env.events with
  | (s, StopReason.running) => (s, StopReason.running)
  | (s, StopReason.interrupted) =>
    (finallyBlock { s with log := s.log ++ ["Stopping monitoring and saving data"] }
       env.shutFailExcel env.shutFailCsv, StopReason.interrupted)
  | (s, StopReason.faulted) =>
    (finallyBlock { s with log := s.log ++ ["Unexpected error"] }
       env.shutFailExcel env.shutFailCsv, StopReason.faulted)

/-! ### Concrete fixtures used by witnesses and counterexamples -/

/-- A write-failure oracle under which every write succeeds. -/
def noFailPath : String → Bool := fun _ => false

/-- A write-failure oracle under which only the primary workbook path fails. -/
def failPrimaryXlsx : String → Bool :=
  fun p => decide (p = "/home/pi/pressure_2024-01-01.xlsx")

/-- No removable media present. -/
def fsNoUsb : MediaFS := { baseExists := false, baseIsDir := false, entries := [] }

/-- Two candidate mounts, reported by the OS in non-alphabetical order. -/
def fsTwoMounts : MediaFS :=
  { baseExists := true, baseIsDir := true
    entries := [("usb-b", true), ("usb-a", true)] }

/-- An iteration that reads `P=1.5` and is not yet due to flush. -/
def tickRead : Tick :=
  { date := "2024-01-01", line := "P=1.5", now := "2024-01-01 10:00:05"
    flushDue := false, fsMedia := fsNoUsb
    failExcelSave := noFailPath, failCsvWrite := noFailPath }

/-- A run that buffers one reading and is then interrupted, with the shutdown
writes succeeding. -/
def envInterruptOk : Env :=
  { cwd := "/home/pi", startDate := "2024-01-01", fsMedia0 := fsNoUsb
    disk0 := { csvFiles := [], xlsxFiles := [] }
    events := [Event.tick tickRead, Event.interrupt]
    shutFailExcel := noFailPath, shutFailCsv := noFailPath }

/-- The same interrupted run, but the primary workbook save fails during the
shutdown flush. -/
def envInterruptFail : Env :=
  { cwd := "/home/pi", startDate := "2024-01-01", fsMedia0 := fsNoUsb
    disk0 := { csvFiles := [], xlsxFiles := [] }
    events := [Event.tick tickRead, Event.interrupt]
    shutFailExcel := failPrimaryXlsx, shutFailCsv := noFailPath }

/-- A run whose first iteration raises an unexpected exception while a second
iteration carrying a reading is still pending. -/
def envFault : Env :=
  { cwd := "/home/pi", startDate := "2024-01-01", fsMedia0 := fsNoUsb
    disk0 := { csvFiles := [], xlsxFiles := [] }
    events := [Event.exn, Event.tick tickRead]
    shutFailExcel := noFailPath, shutFailCsv := noFailPath }

/-- A loop state with one buffered reading and two resolved destinations for
each store, everything already initialised on disk. -/
def stTwoDest : LoopState :=
  { currentDate := "2024-01-01"
    excelPaths := ["/home/pi/pressure_2024-01-01.xlsx", "/media/pi/usb/pressure_2024-01-01.xlsx"]
    csvPaths := ["/home/pi/pressure_2024-01-01.csv", "/media/pi/usb/pressure_2024-01-01.csv"]
    ws := emptyWorksheet
    buffer := [("2024-01-01 10:00:05", PyFloat.finite (3 / 2))]
    disk :=
      { csvFiles := [("/home/pi/pressure_2024-01-01.csv", []),
                     ("/media/pi/usb/pressure_2024-01-01.csv", [])]
        xlsxFiles := [("/home/pi/pressure_2024-01-01.xlsx", emptyWorksheet),
                      ("/media/pi/usb/pressure_2024-01-01.xlsx", emptyWorksheet)] }
    serialOpen := true
    log := [] }

/-- A worksheet whose raw table has only incomplete rows, plus existing
derived cells and a chart. -/
def wsIncomplete : Worksheet :=
  { rawRows := [(some "2024-01-01 10:00:05", none), (none, some (PyFloat.finite 1))]
    derivedRows := [(some "2024-01-01 10:00", some (PyFloat.finite 7))]
    charts := [makeChart 3] }

/-- A state mid-session on 2024-01-01 with one buffered reading and that
day's resolved destinations. -/
def stPreRotation : LoopState :=
  { currentDate := "2024-01-01"
    excelPaths := get_output_paths fsNoUsb "/home/pi" "2024-01-01" "xlsx"
    csvPaths := get_output_paths fsNoUsb "/home/pi" "2024-01-01" "csv"
    ws := emptyWorksheet
    buffer := [("2024-01-01 23:59:58", PyFloat.finite 2)]
    disk :=
      { csvFiles := [("/home/pi/pressure_2024-01-01.csv", [])]
        xlsxFiles := [("/home/pi/pressure_2024-01-01.xlsx", emptyWorksheet)] }
    serialOpen := true
    log := [] }

/-- The first iteration of 2024-01-02: a date change, a fresh reading and a
due flush. -/
def tickRotate : Tick :=
  { date := "2024-01-02", line := "P=2.0", now := "2024-01-02 00:00:00"
    flushDue := true, fsMedia := fsNoUsb
    failExcelSave := noFailPath, failCsvWrite := noFailPath }

/-- The spec's aggregation example, in one arrival order. -/
def rowsA : List (Option String × Option PyFloat) :=
  [(some "2024-01-01 10:01:10", some (PyFloat.finite 5)),
   (some "2024-01-01 10:00:05", some (PyFloat.finite 1)),
   (some "2024-01-01 10:00:45", some (PyFloat.finite 3))]

/-- The spec's aggregation example, in another arrival order. -/
def rowsB : List (Option String × Option PyFloat) :=
  [(some "2024-01-01 10:00:05", some (PyFloat.finite 1)),
   (some "2024-01-01 10:00:45", some (PyFloat.finite 3)),
   (some "2024-01-01 10:01:10", some (PyFloat.finite 5))]

/-! ## Theorems

General lemmas first, then one theorem per claim (with its witness or
counterexample). -/

/-! ### Order properties of the lexicographic comparison -/

theorem lexLeList_cons_iff (x y : Char) (xs ys : List Char) :
    lexLeList (x :: xs) (y :: ys) = true ↔ x < y ∨ (x = y ∧ lexLeList xs ys = true) := by
  by_cases h1 : x < y
  · simp [lexLeList, h1]
  · by_cases h2 : y < x
    · have hne : x ≠ y := fun h => absurd (h ▸ h2) (lt_irrefl y)
      simp [lexLeList, h1, h2, hne]
    · have hxy : x = y := le_antisymm (not_lt.mp h2) (not_lt.mp h1)
      simp [lexLeList, h1, h2, hxy]

theorem lexLeList_total : ∀ a b : List Char, lexLeList a b = true ∨ lexLeList b a = true
  | [], _ => Or.inl rfl
  | _ :: _, [] => Or.inr rfl
  | x :: xs, y :: ys => by
    rcases lt_trichotomy x y with h | h | h
    · exact Or.inl ((lexLeList_cons_iff _ _ _ _).mpr (Or.inl h))
    · rcases lexLeList_total xs ys with ih | ih
      · exact Or.inl ((lexLeList_cons_iff _ _ _ _).mpr (Or.inr ⟨h, ih⟩))
      · exact Or.inr ((lexLeList_cons_iff _ _ _ _).mpr (Or.inr ⟨h.symm, ih⟩))
    · exact Or.inr ((lexLeList_cons_iff _ _ _ _).mpr (Or.inl h))

theorem lexLeList_trans : ∀ a b c : List Char,
    lexLeList a b = true → lexLeList b c = true → lexLeList a c = true
  | [], _, _, _, _ => rfl
  | _ :: _, [], _, h, _ => by simp [lexLeList] at h
  | _ :: _, _ :: _, [], _, h => by simp [lexLeList] at h
  | x :: xs, y :: ys, z :: zs, h1, h2 => by
    rcases (lexLeList_cons_iff _ _ _ _).mp h1 with hxy | ⟨hxy, hrec1⟩
    · rcases (lexLeList_cons_iff _ _ _ _).mp h2 with hyz | ⟨hyz, _⟩
      · exact (lexLeList_cons_iff _ _ _ _).mpr (Or.inl (lt_trans hxy hyz))
      · exact (lexLeList_cons_iff _ _ _ _).mpr (Or.inl (hyz ▸ hxy))
    · rcases (lexLeList_cons_iff _ _ _ _).mp h2 with hyz | ⟨hyz, hrec2⟩
      · exact (lexLeList_cons_iff _ _ _ _).mpr (Or.inl (hxy.symm ▸ hyz))
      · exact (lexLeList_cons_iff _ _ _ _).mpr
          (Or.inr ⟨hxy.trans hyz, lexLeList_trans xs ys zs hrec1 hrec2⟩)

theorem lexLeList_antisymm : ∀ a b : List Char,
    lexLeList a b = true → lexLeList b a = true → a = b
  | [], [], _, _ => rfl
  | [], _ :: _, _, h => by simp [lexLeList] at h
  | _ :: _, [], h, _ => by simp [lexLeList] at h
  | x :: xs, y :: ys, h1, h2 => by
    rcases (lexLeList_cons_iff _ _ _ _).mp h1 with hxy | ⟨hxy, hrec1⟩
    · rcases (lexLeList_cons_iff _ _ _ _).mp h2 with hyx | ⟨hyx, _⟩
      · exact absurd (lt_trans hxy hyx) (lt_irrefl x)
      · exact absurd (hyx ▸ hxy) (lt_irrefl y)
    · rcases (lexLeList_cons_iff _ _ _ _).mp h2 with hyx | ⟨hyx, hrec2⟩
      · exact absurd (hxy ▸ hyx) (lt_irrefl y)
      · rw [hxy, lexLeList_antisymm xs ys hrec1 hrec2]

instance : IsTotal String lexLe := ⟨fun a b => lexLeList_total a.toList b.toList⟩

instance : IsTrans String lexLe :=
  ⟨fun a b c => lexLeList_trans a.toList b.toList c.toList⟩

instance : IsAntisymm String lexLe :=
  ⟨fun a b h1 h2 => String.ext (lexLeList_antisymm a.toList b.toList h1 h2)⟩

instance : IsTotal (String × List PyFloat) itemLe :=
  ⟨fun a b => lexLeList_total a.1.toList b.1.toList⟩

instance : IsTrans (String × List PyFloat) itemLe :=
  ⟨fun a b c => lexLeList_trans a.1.toList b.1.toList c.1.toList⟩

/-! ### The grouping dictionary -/

theorem valsOf_cons (e : String × List PyFloat) (rest : List (String × List PyFloat))
    (k : String) : valsOf (e :: rest) k = if e.1 = k then e.2 else valsOf rest k := by
  by_cases h : e.1 = k <;> simp [valsOf, List.find?_cons, h]

theorem valsOf_insert (g : List (String × List PyFloat)) (k k' : String) (v : PyFloat) :
    valsOf (insertGrouped g k v) k' = valsOf g k' ++ if k' = k then [v] else [] := by
  induction g with
  | nil =>
    by_cases h : k' = k
    · subst h; simp [insertGrouped, valsOf_cons, valsOf]
    · have h2 : ¬ k = k' := fun hh => h hh.symm
      simp [insertGrouped, valsOf_cons, valsOf, h, h2]
  | cons e rest ih =>
    by_cases he : e.1 = k
    · by_cases h : k' = k
      · subst h
        simp [insertGrouped, he, valsOf_cons]
      · have h2 : ¬ k = k' := fun hh => h hh.symm
        simp [insertGrouped, he, valsOf_cons, h, h2]
    · by_cases hek : e.1 = k'
      · have h : ¬ k' = k := fun hh => he (hek.trans hh)
        simp [insertGrouped, he, valsOf_cons, hek, h]
      · simp [insertGrouped, he, valsOf_cons, hek, ih]

theorem keys_insert (g : List (String × List PyFloat)) (k : String) (v : PyFloat) :
    (insertGrouped g k v).map Prod.fst =
      if k ∈ g.map Prod.fst then g.map Prod.fst else g.map Prod.fst ++ [k] := by
  induction g with
  | nil => simp [insertGrouped]
  | cons e rest ih =>
    by_cases he : e.1 = k
    · simp [insertGrouped, he]
    · have he2 : ¬ k = e.1 := fun hh => he hh.symm
      by_cases hm : k ∈ rest.map Prod.fst
      · simp [insertGrouped, he, ih, hm, he2]
      · simp [insertGrouped, he, ih, hm, he2]

theorem keys_insert_nodup (g : List (String × List PyFloat)) (k : String) (v : PyFloat)
    (h : (g.map Prod.fst).Nodup) : ((insertGrouped g k v).map Prod.fst).Nodup := by
  rw [keys_insert]
  by_cases hm : k ∈ g.map Prod.fst
  · simpa [hm] using h
  · simp [hm, List.nodup_append, h]

theorem keys_insert_mem (g : List (String × List PyFloat)) (k : String) (v : PyFloat)
    (k' : String) :
    k' ∈ (insertGrouped g k v).map Prod.fst ↔ k' ∈ g.map Prod.fst ∨ k' = k := by
  rw [keys_insert]
  by_cases hm : k ∈ g.map Prod.fst
  · simp only [hm, if_true]
    constructor
    · exact Or.inl
    · rintro (h | h)
      · exact h
      · exact h ▸ hm
  · simp [hm]

theorem groupFold_valsOf (raw : List (String × PyFloat)) :
    ∀ (g : List (String × List PyFloat)) (k : String),
      valsOf (raw.foldl (fun g r => insertGrouped g (r.1.take 16) r.2) g) k =
        valsOf g k ++ (raw.filter fun r => decide (r.1.take 16 = k)).map Prod.snd := by
  induction raw with
  | nil => simp
  | cons r rest ih =>
    intro g k
    rw [List.foldl_cons, ih, valsOf_insert]
    by_cases h : r.1.take 16 = k
    · simp [List.filter_cons, h]
    · have h2 : ¬ k = r.1.take 16 := fun hh => h hh.symm
      simp [List.filter_cons, h, h2]

theorem groupFold_keys_nodup (raw : List (String × PyFloat)) :
    ∀ g : List (String × List PyFloat), (g.map Prod.fst).Nodup →
      ((raw.foldl (fun g r => insertGrouped g (r.1.take 16) r.2) g).map Prod.fst).Nodup := by
  induction raw with
  | nil => exact fun g h => h
  | cons r rest ih =>
    intro g h
    exact ih _ (keys_insert_nodup g _ _ h)

theorem groupFold_keys_mem (raw : List (String × PyFloat)) :
    ∀ (g : List (String × List PyFloat)) (k' : String),
      k' ∈ (raw.foldl (fun g r => insertGrouped g (r.1.take 16) r.2) g).map Prod.fst ↔
        k' ∈ g.map Prod.fst ∨ k' ∈ raw.map fun r => r.1.take 16 := by
  induction raw with
  | nil => simp
  | cons r rest ih =>
    intro g k'
    rw [List.foldl_cons, ih, keys_insert_mem]
    simp [or_assoc, or_comm, or_left_comm]

theorem groupByMinute_valsOf (raw : List (String × PyFloat)) (k : String) :
    valsOf (groupByMinute raw) k =
      (raw.filter fun r => decide (r.1.take 16 = k)).map Prod.snd := by
  have := groupFold_valsOf raw [] k
  simpa [groupByMinute, valsOf] using this

theorem groupByMinute_keys_nodup (raw : List (String × PyFloat)) :
    ((groupByMinute raw).map Prod.fst).Nodup :=
  groupFold_keys_nodup raw [] (by simp)

theorem groupByMinute_keys_mem (raw : List (String × PyFloat)) (k : String) :
    k ∈ (groupByMinute raw).map Prod.fst ↔ k ∈ raw.map fun r => r.1.take 16 := by
  have := groupFold_keys_mem raw [] k
  simpa [groupByMinute] using this

theorem assoc_eq_keys_map (g : List (String × List PyFloat))
    (h : (g.map Prod.fst).Nodup) :
    g = (g.map Prod.fst).map fun k => (k, valsOf g k) := by
  induction g with
  | nil => rfl
  | cons e rest ih =>
    rw [List.map_cons, List.map_cons]
    have hhead : (e.1, valsOf (e :: rest) e.1) = e := by
      rw [valsOf_cons]; simp
    rw [hhead]
    have hrest : (rest.map Prod.fst).Nodup := (List.nodup_cons.mp (by simpa using h)).2
    have hne : ∀ k ∈ rest.map Prod.fst, e.1 ≠ k := by
      intro k hk heq
      exact (List.nodup_cons.mp (by simpa using h)).1 (heq ▸ hk)
    have : (rest.map Prod.fst).map (fun k => (k, valsOf (e :: rest) k)) =
        (rest.map Prod.fst).map fun k => (k, valsOf rest k) := by
      apply List.map_congr_left
      intro k hk
      rw [valsOf_cons, if_neg (hne k hk)]
    rw [this, ← ih hrest]

/-! ### Sorting the grouped items -/

theorem map_orderedInsert_key (G : List (String × List PyFloat)) (a : String)
    (l : List String) :
    (List.orderedInsert lexLe a l).map (fun k => (k, valsOf G k)) =
      List.orderedInsert itemLe (a, valsOf G a) (l.map fun k => (k, valsOf G k)) := by
  induction l with
  | nil => rfl
  | cons b bs ih =>
    by_cases h : lexLe a b
    · have h' : itemLe (a, valsOf G a) (b, valsOf G b) := h
      simp only [List.map_cons, List.orderedInsert]
      rw [if_pos h, if_pos h', List.map_cons, List.map_cons]
    · have h' : ¬ itemLe (a, valsOf G a) (b, valsOf G b) := h
      simp only [List.map_cons, List.orderedInsert]
      rw [if_neg h, if_neg h', List.map_cons, ih]

theorem map_insertionSort_key (G : List (String × List PyFloat)) (l : List String) :
    (l.insertionSort lexLe).map (fun k => (k, valsOf G k)) =
      (l.map fun k => (k, valsOf G k)).insertionSort itemLe := by
  induction l with
  | nil => rfl
  | cons b bs ih =>
    rw [List.insertionSort, List.map_cons, List.insertionSort, ← ih, map_orderedInsert_key]

theorem sortedItems_groupByMinute (raw : List (String × PyFloat)) :
    sortedItems (groupByMinute raw) =
      (((raw.map fun r => r.1.take 16).dedup).insertionSort lexLe).map
        fun k => (k, valsOf (groupByMinute raw) k) := by
  have hkeys := groupByMinute_keys_nodup raw
  have h1 : sortedItems (groupByMinute raw) =
      (((groupByMinute raw).map Prod.fst).insertionSort lexLe).map
        fun k => (k, valsOf (groupByMinute raw) k) := by
    rw [sortedItems]
    conv_lhs => rw [assoc_eq_keys_map (groupByMinute raw) hkeys]
    rw [← map_insertionSort_key]
  rw [h1]
  congr 1
  have hmem : ∀ a, a ∈ (groupByMinute raw).map Prod.fst ↔
      a ∈ (raw.map fun r => r.1.take 16).dedup := by
    intro a
    rw [List.mem_dedup, groupByMinute_keys_mem]
  have hpK : ((groupByMinute raw).map Prod.fst).Perm
      ((raw.map fun r => r.1.take 16).dedup) :=
    (List.perm_ext_iff_of_nodup hkeys (List.nodup_dedup _)).mpr hmem
  exact List.eq_of_perm_of_sorted
    ((List.perm_insertionSort lexLe _).trans (hpK.trans (List.perm_insertionSort lexLe _).symm))
    (List.sorted_insertionSort lexLe _) (List.sorted_insertionSort lexLe _)

/-- The aggregation of lines 104-123 agrees with the spec-side description:
one row per distinct minute key, average rounded to 3 digits, sorted by key. -/
theorem minuteAveragesOf_eq_specAggregate (raw : List (String × PyFloat)) :
    minuteAveragesOf raw = specAggregate raw := by
  rw [minuteAveragesOf, specAggregate, sortedItems_groupByMinute, List.map_map]
  apply List.map_congr_left
  intro k hk
  simp only [Function.comp]
  rw [groupByMinute_valsOf]

/-! ### Sums of Python floats are permutation invariant -/

theorem pyAdd_right_comm (z x y : PyFloat) :
    (z.add x).add y = (z.add y).add x := by
  cases z <;> cases x <;> cases y <;> simp [PyFloat.add] <;> ring

theorem foldl_pyAdd_perm {l l' : List PyFloat} (h : l.Perm l') :
    ∀ z : PyFloat, l.foldl PyFloat.add z = l'.foldl PyFloat.add z := by
  induction h with
  | nil => intro z; rfl
  | cons x _ ih => intro z; rw [List.foldl_cons, List.foldl_cons, ih]
  | swap x y l => intro z; rw [List.foldl_cons, List.foldl_cons, List.foldl_cons,
      List.foldl_cons, pyAdd_right_comm]
  | trans _ _ ih1 ih2 => intro z; rw [ih1, ih2]

theorem pySum_perm {l l' : List PyFloat} (h : l.Perm l') : pySum l = pySum l' :=
  foldl_pyAdd_perm h _

/-! ### C1 — aggregation correctness -/

/-- C1: for every raw table of (timestamp, value) rows with no missing
fields, the aggregation emits exactly one row per group of rows sharing the
first 16 characters of the timestamp string, whose value is the group's
arithmetic mean rounded to 3 decimal digits (`specAggregate`); and on the
spec's example the two minutes average to 2.0 and 5.0. -/
theorem aggregation_groups_and_averages :
    (∀ raw : List (String × PyFloat),
      minuteAveragesOf (readRawData (raw.map fun r => (some r.1, some r.2))) =
        specAggregate raw) ∧
    minuteAveragesOf (readRawData rowsB) =
      [("2024-01-01 10:00", PyFloat.finite 2), ("2024-01-01 10:01", PyFloat.finite 5)] := by
  constructor
  · intro raw
    have hr : readRawData (raw.map fun r => (some r.1, some r.2)) = raw := by
      induction raw with
      | nil => rfl
      | cons r rest ih => simpa [readRawData, List.filterMap_cons] using ih
    rw [hr, minuteAveragesOf_eq_specAggregate]
  · decide

/-! ### C8 — sort invariant and arrival-order independence -/

/-- C8: the aggregate rows are sorted ascending by minute key in
lexicographic string order, and the aggregate output is identical across
permutations of the raw rows. -/
theorem aggregate_sorted_and_order_invariant
    (rows rows' : List (Option String × Option PyFloat)) (hperm : rows.Perm rows') :
    List.Pairwise (fun a b => lexLe a.1 b.1) (minuteAveragesOf (readRawData rows)) ∧
      minuteAveragesOf (readRawData rows) = minuteAveragesOf (readRawData rows') := by
  constructor
  · rw [minuteAveragesOf_eq_specAggregate, specAggregate, List.pairwise_map]
    exact List.sorted_insertionSort lexLe _
  · have hraw : (readRawData rows).Perm (readRawData rows') := hperm.filterMap _
    rw [minuteAveragesOf_eq_specAggregate, minuteAveragesOf_eq_specAggregate,
      specAggregate, specAggregate]
    have hkeys :
        (((readRawData rows).map fun r => r.1.take 16).dedup).insertionSort lexLe =
          (((readRawData rows').map fun r => r.1.take 16).dedup).insertionSort lexLe :=
      List.eq_of_perm_of_sorted
        ((List.perm_insertionSort lexLe _).trans
          (((hraw.map fun r => r.1.take 16).dedup).trans
            (List.perm_insertionSort lexLe _).symm))
        (List.sorted_insertionSort lexLe _) (List.sorted_insertionSort lexLe _)
    rw [hkeys]
    apply List.map_congr_left
    intro k hk
    have hf : ((readRawData rows).filter fun r => decide (r.1.take 16 = k)).Perm
        ((readRawData rows').filter fun r => decide (r.1.take 16 = k)) := hraw.filter _
    have hm := hf.map Prod.snd
    rw [avgOf, avgOf, pySum_perm hm, hm.length_eq]

/-- Witness for C8 at the spec's example in two arrival orders. -/
theorem aggregate_sorted_and_order_invariant_witness :
    List.Pairwise (fun a b => lexLe a.1 b.1) (minuteAveragesOf (readRawData rowsA)) ∧
      minuteAveragesOf (readRawData rowsA) = minuteAveragesOf (readRawData rowsB) :=
  aggregate_sorted_and_order_invariant rowsA rowsB (by decide)

/-! ### C2 — the parser's acceptance set -/

/-- C2 counterexample: `float("nan")` succeeds, so the line `P=nan` — whose
remainder is not a finite decimal number — is accepted with value NaN
rather than rejected. -/
theorem parse_counterexample :
    specFiniteDecimal "nan" = false ∧
      process_sensor_data "P=nan" "2024-01-01 10:00:00" =
        some ("2024-01-01 10:00:00", PyFloat.nan) :=
  ⟨by decide, by decide⟩

/-- C2 amended: a line parses exactly when it starts with `P=` and the
remainder is accepted by Python's float conversion — which beyond plain
decimals also accepts scientific notation, underscore digit groups,
surrounding whitespace and the special values `inf`/`infinity`/`nan`, with
optional sign; the reading's value is the converted value and its timestamp
is the wall-clock time at the moment of parse, never taken from the line. -/
theorem parse_amended (line now : String) :
    process_sensor_data line now =
      (if strStartsWith line "P=" then pyFloatOfString (line.drop 2) else none).map
        fun v => (now, v) := by
  by_cases hp : strStartsWith line "P=" = true
  · cases hv : pyFloatOfString (line.drop 2) with
    | none => simp [process_sensor_data, is_float, hp, hv]
    | some v => simp [process_sensor_data, is_float, hp, hv]
  · simp [process_sensor_data, hp]

/-! ### C10 — no-op update on a raw table without complete rows -/

/-- C10: when no raw row has both its timestamp and its value present, the
update returns at line 102: the derived columns D-E and the chart objects
are left exactly as they were. -/
theorem update_noop_without_complete_rows (ws : Worksheet)
    (h : ∀ r ∈ ws.rawRows, r.1 = none ∨ r.2 = none) :
    update_minute_averages_table ws = ws := by
  have hempty : readRawData ws.rawRows = [] := by
    rw [readRawData, List.filterMap_eq_nil_iff]
    intro r hr
    obtain ⟨r1, r2⟩ := r
    rcases h _ hr with h1 | h1
    · cases r1 with
      | none => rfl
      | some ts => exact absurd h1 (by simp)
    · cases r2 with
      | none => cases r1 <;> rfl
      | some v => exact absurd h1 (by simp)
  simp [update_minute_averages_table, hempty]

/-- Witness for C10: a sheet with only incomplete raw rows, existing derived
cells and a chart is returned unchanged. -/
theorem update_noop_witness : update_minute_averages_table wsIncomplete = wsIncomplete :=
  update_noop_without_complete_rows wsIncomplete (by decide)

/-! ### C9 — destination resolution -/

/-- C9 counterexample: with two candidate mounts reported by the OS in the
order `usb-b`, `usb-a`, the code mirrors to `usb-b` (first in iteration
order) while the spec's tie-break picks `usb-a` (first in sorted order). -/
theorem usb_choice_counterexample :
    get_usb_mount_point fsTwoMounts = some "/media/pi/usb-b" ∧
      spec_usb_choice fsTwoMounts = some "/media/pi/usb-a" ∧
      get_usb_mount_point fsTwoMounts ≠ spec_usb_choice fsTwoMounts :=
  ⟨by decide, by decide, by decide⟩

/-- C9 amended: resolution always yields the primary path
`<cwd>/pressure_<date>.<ext>` first and never more than two paths; the
optional second path mirrors the filename under the first directory entry of
`/media/pi` in the OS's iteration order (not in sorted order). -/
theorem destination_resolution (fs : MediaFS) (cwd date ext : String) :
    (get_output_paths fs cwd date ext).length ≤ 2 ∧
      (get_output_paths fs cwd date ext).headD "" =
        cwd ++ "/" ++ get_daily_filename date ext ∧
      1 ≤ (get_output_paths fs cwd date ext).length ∧
      (get_output_paths fs cwd date ext).tail =
        (get_usb_mount_point fs).toList.map
          fun m => m ++ "/" ++ get_daily_filename date ext := by
  cases h : get_usb_mount_point fs <;> simp [get_output_paths, h]

/-! ### File-table lemmas -/

theorem lookupFile_cons {α : Type} (e : String × α) (rest : List (String × α)) (p : String) :
    lookupFile (e :: rest) p = if e.1 = p then some e.2 else lookupFile rest p := by
  by_cases h : e.1 = p <;> simp [lookupFile, List.find?_cons, h]

theorem lookupFile_setFile {α : Type} (files : List (String × α)) (p q : String) (v : α) :
    lookupFile (setFile files p v) q = if p = q then some v else lookupFile files q := by
  induction files with
  | nil => by_cases h : p = q <;> simp [setFile, lookupFile_cons, lookupFile, h]
  | cons e rest ih =>
    by_cases he : e.1 = p
    · by_cases h : p = q
      · simp [setFile, he, lookupFile_cons, h]
      · have he2 : ¬ e.1 = q := fun hh => h (he.symm.trans hh)
        simp [setFile, he, lookupFile_cons, h, he2]
    · by_cases heq : e.1 = q
      · have hpq : ¬ p = q := fun hh => he (heq.trans hh.symm)
        have hqp : ¬ q = p := fun hh => hpq hh.symm
        simp [setFile, he, lookupFile_cons, heq, hpq, hqp]
      · simp [setFile, he, lookupFile_cons, heq, ih]

theorem csvAt_append_csv (d : Disk) (p q : String) (rows : List CsvRow) :
    (append_csv d p rows).csvAt q = if p = q then d.csvAt q ++ rows else d.csvAt q := by
  by_cases h : p = q
  · subst h; simp [append_csv, Disk.csvAt, lookupFile_setFile]
  · simp [append_csv, Disk.csvAt, lookupFile_setFile, h]

theorem csvAt_save_excel (d : Disk) (p q : String) (ws : Worksheet) :
    (save_excel d p ws).csvAt q = d.csvAt q := rfl

theorem csvAt_initialize_excel (d : Disk) (p q : String) :
    (initialize_excel d p).csvAt q = d.csvAt q := by
  rw [initialize_excel]; split <;> rfl

theorem csvAt_initialize_csv (d : Disk) (p q : String) :
    (initialize_csv d p).csvAt q = d.csvAt q := by
  rw [initialize_csv]
  split
  · rfl
  · rename_i h
    by_cases hq : p = q
    · subst hq
      have hl : lookupFile d.csvFiles p = none := by
        cases hl : lookupFile d.csvFiles p with
        | none => rfl
        | some w => exact absurd (by rw [hl]; rfl) h
      simp [Disk.csvAt, lookupFile_setFile, hl]
    · simp [Disk.csvAt, lookupFile_setFile, hq]

theorem csvExists_initialize_csv (d : Disk) (p q : String) :
    (initialize_csv d p).csvExists q =
      (if p = q then true else d.csvExists q) := by
  rw [initialize_csv]
  split
  · rename_i h
    by_cases hq : p = q
    · subst hq; simp [Disk.csvExists, h]
    · simp [hq]
  · by_cases hq : p = q
    · subst hq; simp [Disk.csvExists, lookupFile_setFile]
    · simp [Disk.csvExists, lookupFile_setFile, hq]

theorem csvExists_append_csv (d : Disk) (p q : String) (rows : List CsvRow) :
    (append_csv d p rows).csvExists q = (if p = q then true else d.csvExists q) := by
  by_cases h : p = q <;> simp [append_csv, Disk.csvExists, lookupFile_setFile, h]

theorem csvExists_save_excel (d : Disk) (p q : String) (ws : Worksheet) :
    (save_excel d p ws).csvExists q = d.csvExists q := rfl

theorem csvExists_initialize_excel (d : Disk) (p q : String) :
    (initialize_excel d p).csvExists q = d.csvExists q := by
  rw [initialize_excel]; split <;> rfl

theorem xlsxAt_save_excel (d : Disk) (p q : String) (ws : Worksheet) :
    (save_excel d p ws).xlsxAt q = if p = q then some ws else d.xlsxAt q := by
  simp [save_excel, Disk.xlsxAt, lookupFile_setFile]

theorem xlsxAt_append_csv (d : Disk) (p q : String) (rows : List CsvRow) :
    (append_csv d p rows).xlsxAt q = d.xlsxAt q := rfl

/-! ### The write loops -/

theorem saveExcelSeq_nofail (d : Disk) (paths : List String) (ws : Worksheet)
    (failE : String → Bool) (h : ∀ p ∈ paths, failE p = false) :
    saveExcelSeq d paths ws failE =
      (paths.foldl (fun d p => save_excel d p ws) d, none) := by
  induction paths generalizing d with
  | nil => rfl
  | cons p rest ih =>
    have hp : failE p = false := h p (List.mem_cons_self p rest)
    rw [saveExcelSeq, List.foldl_cons]
    simp only [hp, Bool.false_eq_true, if_false]
    exact ih _ fun q hq => h q (List.mem_cons_of_mem p hq)

theorem appendCsvSeq_nofail (d : Disk) (paths : List String) (rows : List CsvRow)
    (failC : String → Bool) (h : ∀ p ∈ paths, failC p = false) :
    appendCsvSeq d paths rows failC =
      (paths.foldl (fun d p => append_csv d p rows) d, none) := by
  induction paths generalizing d with
  | nil => rfl
  | cons p rest ih =>
    have hp : failC p = false := h p (List.mem_cons_self p rest)
    rw [appendCsvSeq, List.foldl_cons]
    simp only [hp, Bool.false_eq_true, if_false]
    exact ih _ fun q hq => h q (List.mem_cons_of_mem p hq)

theorem saveExcelSeq_snd_none (d : Disk) (paths : List String) (ws : Worksheet)
    (failE : String → Bool) (h : (saveExcelSeq d paths ws failE).2 = none) :
    (saveExcelSeq d paths ws failE).1 = paths.foldl (fun d p => save_excel d p ws) d := by
  induction paths generalizing d with
  | nil => rfl
  | cons p rest ih =>
    rw [saveExcelSeq] at h ⊢
    by_cases hp : failE p = true
    · rw [if_pos hp] at h; exact absurd h (by simp)
    · rw [if_neg hp] at h ⊢
      rw [List.foldl_cons]
      exact ih _ h

theorem appendCsvSeq_snd_none (d : Disk) (paths : List String) (rows : List CsvRow)
    (failC : String → Bool) (h : (appendCsvSeq d paths rows failC).2 = none) :
    (appendCsvSeq d paths rows failC).1 =
      paths.foldl (fun d p => append_csv d p rows) d := by
  induction paths generalizing d with
  | nil => rfl
  | cons p rest ih =>
    rw [appendCsvSeq] at h ⊢
    by_cases hp : failC p = true
    · rw [if_pos hp] at h; exact absurd h (by simp)
    · rw [if_neg hp] at h ⊢
      rw [List.foldl_cons]
      exact ih _ h

theorem csvAt_foldl_save_excel (paths : List String) (ws : Worksheet) (q : String) :
    ∀ d : Disk, (paths.foldl (fun d p => save_excel d p ws) d).csvAt q = d.csvAt q := by
  induction paths with
  | nil => intro d; rfl
  | cons p rest ih => intro d; rw [List.foldl_cons, ih, csvAt_save_excel]

theorem csvAt_foldl_append_notmem (paths : List String) (rows : List CsvRow) (q : String)
    (hq : q ∉ paths) :
    ∀ d : Disk, (paths.foldl (fun d p => append_csv d p rows) d).csvAt q = d.csvAt q := by
  induction paths with
  | nil => intro d; rfl
  | cons p rest ih =>
    intro d
    have hpq : ¬ p = q := fun hh => hq (hh ▸ List.mem_cons_self p rest)
    rw [List.foldl_cons, ih (fun hh => hq (List.mem_cons_of_mem p hh)),
      csvAt_append_csv, if_neg hpq]

theorem csvAt_foldl_append_mem (paths : List String) (rows : List CsvRow) (q : String)
    (hnd : paths.Nodup) (hq : q ∈ paths) :
    ∀ d : Disk, (paths.foldl (fun d p => append_csv d p rows) d).csvAt q =
      d.csvAt q ++ rows := by
  induction paths with
  | nil => cases hq
  | cons p rest ih =>
    intro d
    rw [List.foldl_cons]
    rcases List.mem_cons.mp hq with h | h
    · subst h
      have hnot : q ∉ rest := (List.nodup_cons.mp hnd).1
      rw [csvAt_foldl_append_notmem rest rows q hnot, csvAt_append_csv, if_pos rfl]
    · have hpq : ¬ p = q := fun hh => (List.nodup_cons.mp hnd).1 (hh ▸ h)
      rw [ih (List.nodup_cons.mp hnd).2 h, csvAt_append_csv, if_neg hpq]

theorem csvAt_foldl_append_suffix_pres (paths : List String) (rows : List CsvRow)
    (q : String) :
    ∀ d : Disk, rows <:+ d.csvAt q →
      rows <:+ (paths.foldl (fun d p => append_csv d p rows) d).csvAt q := by
  induction paths with
  | nil => intro d h; exact h
  | cons p rest ih =>
    intro d h
    rw [List.foldl_cons]
    apply ih
    rw [csvAt_append_csv]
    by_cases hpq : p = q
    · rw [if_pos hpq]; exact ⟨d.csvAt q, rfl⟩
    · rw [if_neg hpq]; exact h

theorem csvAt_foldl_append_suffix (paths : List String) (rows : List CsvRow) (q : String)
    (hq : q ∈ paths) :
    ∀ d : Disk, rows <:+ (paths.foldl (fun d p => append_csv d p rows) d).csvAt q := by
  induction paths with
  | nil => cases hq
  | cons p rest ih =>
    intro d
    rcases List.mem_cons.mp hq with h | h
    · subst h
      rw [List.foldl_cons]
      apply csvAt_foldl_append_suffix_pres
      rw [csvAt_append_csv, if_pos rfl]
      exact ⟨d.csvAt q, rfl⟩
    · rw [List.foldl_cons]
      exact ih h _

theorem xlsxAt_foldl_save_notmem (paths : List String) (ws : Worksheet) (q : String)
    (hq : q ∉ paths) :
    ∀ d : Disk, (paths.foldl (fun d p => save_excel d p ws) d).xlsxAt q = d.xlsxAt q := by
  induction paths with
  | nil => intro d; rfl
  | cons p rest ih =>
    intro d
    have hpq : ¬ p = q := fun hh => hq (hh ▸ List.mem_cons_self p rest)
    rw [List.foldl_cons, ih (fun hh => hq (List.mem_cons_of_mem p hh)),
      xlsxAt_save_excel, if_neg hpq]

theorem xlsxAt_foldl_save_mem (paths : List String) (ws : Worksheet) (q : String)
    (hq : q ∈ paths) :
    ∀ d : Disk, (paths.foldl (fun d p => save_excel d p ws) d).xlsxAt q = some ws := by
  induction paths with
  | nil => cases hq
  | cons p rest ih =>
    intro d
    rw [List.foldl_cons]
    by_cases h : q ∈ rest
    · exact ih h _
    · rcases List.mem_cons.mp hq with hh | hh
      · subst hh
        rw [xlsxAt_foldl_save_notmem rest ws q h, xlsxAt_save_excel, if_pos rfl]
      · exact absurd hh h

/-! ### The write sequence and the flush -/

theorem writeOut_eq (s : LoopState) (failE failC : String → Bool) :
    writeOut s failE failC =
      if (saveExcelSeq s.disk s.excelPaths
            (update_minute_averages_table (s.ws.appendRows s.buffer)) failE).2.isSome then
        ({ s with
            ws := update_minute_averages_table (s.ws.appendRows s.buffer)
            disk := (saveExcelSeq s.disk s.excelPaths
              (update_minute_averages_table (s.ws.appendRows s.buffer)) failE).1 },
          (saveExcelSeq s.disk s.excelPaths
            (update_minute_averages_table (s.ws.appendRows s.buffer)) failE).2)
      else
        ({ s with
            ws := update_minute_averages_table (s.ws.appendRows s.buffer)
            disk := (appendCsvSeq
              (saveExcelSeq s.disk s.excelPaths
                (update_minute_averages_table (s.ws.appendRows s.buffer)) failE).1
              s.csvPaths s.buffer failC).1 },
          (appendCsvSeq
            (saveExcelSeq s.disk s.excelPaths
              (update_minute_averages_table (s.ws.appendRows s.buffer)) failE).1
            s.csvPaths s.buffer failC).2) := rfl

theorem flushAttempt_eq (s : LoopState) (failE failC : String → Bool) :
    flushAttempt s failE failC =
      if (writeOut s failE failC).2.isSome then writeOut s failE failC
      else ({ (writeOut s failE failC).1 with buffer := [] }, none) := rfl

theorem finallyBlock_eq (s : LoopState) (failE failC : String → Bool) :
    finallyBlock s failE failC =
      if s.buffer.isEmpty then { s with serialOpen := false }
      else if (writeOut s failE failC).2.isSome then (writeOut s failE failC).1
      else { (writeOut s failE failC).1 with
              log := (writeOut s failE failC).1.log ++ ["Saved readings before exit"]
              serialOpen := false } := rfl

theorem writeOut_buffer (s : LoopState) (failE failC : String → Bool) :
    (writeOut s failE failC).1.buffer = s.buffer := by
  rw [writeOut_eq]
  split <;> rfl

theorem writeOut_nofail (s : LoopState) (failE failC : String → Bool)
    (hE : ∀ p ∈ s.excelPaths, failE p = false) (hC : ∀ p ∈ s.csvPaths, failC p = false) :
    writeOut s failE failC =
      ({ s with
          ws := update_minute_averages_table (s.ws.appendRows s.buffer)
          disk :=
            s.csvPaths.foldl (fun d p => append_csv d p s.buffer)
              (s.excelPaths.foldl
                (fun d p =>
                  save_excel d p (update_minute_averages_table (s.ws.appendRows s.buffer)))
                s.disk) },
        none) := by
  rw [writeOut_eq, saveExcelSeq_nofail _ _ _ _ hE]
  simp only [appendCsvSeq_nofail _ _ _ _ hC, Option.isSome_none, Bool.false_eq_true,
    if_false]

theorem writeOut_snd_none (s : LoopState) (failE failC : String → Bool)
    (h : (writeOut s failE failC).2 = none) :
    writeOut s failE failC =
      ({ s with
          ws := update_minute_averages_table (s.ws.appendRows s.buffer)
          disk :=
            s.csvPaths.foldl (fun d p => append_csv d p s.buffer)
              (s.excelPaths.foldl
                (fun d p =>
                  save_excel d p (update_minute_averages_table (s.ws.appendRows s.buffer)))
                s.disk) },
        none) := by
  cases hE : (saveExcelSeq s.disk s.excelPaths
      (update_minute_averages_table (s.ws.appendRows s.buffer)) failE).2 with
  | some q =>
    rw [writeOut_eq, if_pos (by rw [hE]; rfl), hE] at h
    exact absurd h (by simp)
  | none =>
    have h1 := saveExcelSeq_snd_none s.disk s.excelPaths
      (update_minute_averages_table (s.ws.appendRows s.buffer)) failE hE
    rw [writeOut_eq, if_neg (by simp [hE])] at h ⊢
    rw [h1] at h ⊢
    have h2 := appendCsvSeq_snd_none _ s.csvPaths s.buffer failC (by simpa using h)
    have h3 : (appendCsvSeq
        (s.excelPaths.foldl
          (fun d p =>
            save_excel d p (update_minute_averages_table (s.ws.appendRows s.buffer)))
          s.disk)
        s.csvPaths s.buffer failC).2 = none := by simpa using h
    rw [h2, h3]

theorem writeOut_snd_none_disk (s : LoopState) (failE failC : String → Bool)
    (h : (writeOut s failE failC).2 = none) :
    (writeOut s failE failC).1.disk =
      s.csvPaths.foldl (fun d p => append_csv d p s.buffer)
        (s.excelPaths.foldl
          (fun d p =>
            save_excel d p (update_minute_averages_table (s.ws.appendRows s.buffer)))
          s.disk) := by
  rw [writeOut_snd_none s failE failC h]

theorem flushAttempt_snd_none (s : LoopState) (failE failC : String → Bool)
    (h : (flushAttempt s failE failC).2 = none) :
    flushAttempt s failE failC =
      ({ (writeOut s failE failC).1 with buffer := [] }, none) ∧
      (writeOut s failE failC).2 = none := by
  cases hw : (writeOut s failE failC).2 with
  | some q =>
    rw [flushAttempt_eq, if_pos (by rw [hw]; rfl), hw] at h
    exact absurd h (by simp)
  | none =>
    refine ⟨?_, rfl⟩
    rw [flushAttempt_eq, if_neg (by simp [hw])]

theorem flushAttempt_snd_some (s : LoopState) (failE failC : String → Bool) (p : String)
    (h : (flushAttempt s failE failC).2 = some p) :
    flushAttempt s failE failC = writeOut s failE failC := by
  cases hw : (writeOut s failE failC).2 with
  | some q => rw [flushAttempt_eq, if_pos (by rw [hw]; rfl)]
  | none =>
    rw [flushAttempt_eq, if_neg (by simp [hw])] at h
    exact absurd h (by simp)

/-! ### C6 — buffer clearing discipline -/

/-- C6: the loop's buffer is cleared exactly by a flush all of whose writes
succeed — and then every resolved csv destination has received the whole
buffer — while a flush that raises leaves the buffer intact for the next
attempt; the final shutdown flush never clears the buffer (the process exits
right after the one attempt). -/
theorem buffer_cleared_only_on_full_success (s : LoopState) (failE failC : String → Bool) :
    ((flushAttempt s failE failC).2 = none →
        (flushAttempt s failE failC).1.buffer = [] ∧
          (s.csvPaths.Nodup →
            ∀ p ∈ s.csvPaths,
              (flushAttempt s failE failC).1.disk.csvAt p = s.disk.csvAt p ++ s.buffer)) ∧
      ((flushAttempt s failE failC).2 ≠ none →
        (flushAttempt s failE failC).1.buffer = s.buffer) ∧
      (finallyBlock s failE failC).buffer = s.buffer := by
  refine ⟨?succ, ?fail, ?shut⟩
  case succ =>
    intro hnone
    obtain ⟨hfl, hwn⟩ := flushAttempt_snd_none s failE failC hnone
    rw [hfl]
    refine ⟨rfl, fun hnd p hp => ?_⟩
    show (writeOut s failE failC).1.disk.csvAt p = s.disk.csvAt p ++ s.buffer
    rw [writeOut_snd_none_disk s failE failC hwn,
      csvAt_foldl_append_mem s.csvPaths s.buffer p hnd hp, csvAt_foldl_save_excel]
  case fail =>
    intro hne
    cases hx : (flushAttempt s failE failC).2 with
    | none => exact absurd hx hne
    | some p =>
      rw [flushAttempt_snd_some s failE failC p hx]
      exact writeOut_buffer s failE failC
  case shut =>
    rw [finallyBlock_eq]
    split
    · rfl
    · split
      · exact writeOut_buffer s failE failC
      · exact writeOut_buffer s failE failC

/-- Witness for C6: a successful flush over two destinations clears the
buffer. -/
theorem buffer_cleared_witness :
    (flushAttempt stTwoDest noFailPath noFailPath).2 = none ∧
      (flushAttempt stTwoDest noFailPath noFailPath).1.buffer = [] :=
  ⟨by decide,
    ((buffer_cleared_only_on_full_success stTwoDest noFailPath noFailPath).1 (by decide)).1⟩

/-! ### C5 — behaviour when one destination fails -/

/-- C5 counterexample: with two destinations resolved for each store and the
first workbook save failing, the flush aborts at once — the mirror workbook
and both csv files receive nothing of the batch, the buffer is kept, and the
only report is the raised exception; there is no per-path result. -/
theorem partial_failure_counterexample :
    (flushAttempt stTwoDest failPrimaryXlsx noFailPath).2 =
        some "/home/pi/pressure_2024-01-01.xlsx" ∧
      (flushAttempt stTwoDest failPrimaryXlsx noFailPath).1.disk = stTwoDest.disk ∧
      (flushAttempt stTwoDest failPrimaryXlsx noFailPath).1.disk.csvAt
          "/media/pi/usb/pressure_2024-01-01.csv" = [] ∧
      stTwoDest.buffer ≠ [] ∧
      (flushAttempt stTwoDest failPrimaryXlsx noFailPath).1.buffer = stTwoDest.buffer :=
  ⟨by decide, by decide, by decide, by decide, by decide⟩

/-- C5 amended: a failing write to the first resolved workbook destination
raises immediately: no later destination of that flush is attempted (the
disk is untouched), the buffer is retained, and the flush's outcome is just
the exception naming the failing path — there is no `PartialFailure` report
listing failed paths. -/
theorem write_failure_aborts_flush (s : LoopState) (failE failC : String → Bool)
    (p : String) (rest : List String) (hpaths : s.excelPaths = p :: rest)
    (hfail : failE p = true) :
    flushAttempt s failE failC =
      ({ s with ws := update_minute_averages_table (s.ws.appendRows s.buffer) }, some p) := by
  rw [flushAttempt, writeOut, hpaths, saveExcelSeq]
  simp [hfail]

/-- Witness for C5's amended claim at the two-destination fixture. -/
theorem write_failure_aborts_flush_witness :
    flushAttempt stTwoDest failPrimaryXlsx noFailPath =
      ({ stTwoDest with
          ws := update_minute_averages_table (stTwoDest.ws.appendRows stTwoDest.buffer) },
        some "/home/pi/pressure_2024-01-01.xlsx") :=
  write_failure_aborts_flush stTwoDest failPrimaryXlsx noFailPath
    "/home/pi/pressure_2024-01-01.xlsx" ["/media/pi/usb/pressure_2024-01-01.xlsx"]
    rfl (by decide)

/-! ### Distinct dates resolve to distinct paths -/

theorem takeWhile_append_all (p : Char → Bool) :
    ∀ l r : List Char, (∀ c ∈ l, p c = true) → p '/' = false →
      (l ++ '/' :: r).takeWhile p = l
  | [], r, _, hx => by simp [List.takeWhile_cons, hx]
  | c :: cs, r, hall, hx => by
    have hc : p c = true := hall c (List.mem_cons_self c cs)
    simp only [List.cons_append, List.takeWhile_cons, hc, if_true]
    rw [takeWhile_append_all p cs r (fun d hd => hall d (List.mem_cons_of_mem c hd)) hx]

theorem last_component_eq {x y a b : String}
    (ha : '/' ∉ a.data) (hb : '/' ∉ b.data)
    (h : x ++ "/" ++ a = y ++ "/" ++ b) : a = b := by
  apply String.ext
  have hd : x.data ++ '/' :: a.data = y.data ++ '/' :: b.data := by
    have hdd := congrArg String.data h
    simpa [List.append_assoc] using hdd
  have hrev : a.data.reverse ++ '/' :: x.data.reverse
      = b.data.reverse ++ '/' :: y.data.reverse := by
    have hr := congrArg List.reverse hd
    simpa [List.reverse_append] using hr
  have ta := takeWhile_append_all (fun c => decide (¬ c = '/')) a.data.reverse
    x.data.reverse
    (fun c hc => decide_eq_true fun hcc : c = '/' => ha (hcc ▸ List.mem_reverse.mp hc))
    (by decide)
  have tb := takeWhile_append_all (fun c => decide (¬ c = '/')) b.data.reverse
    y.data.reverse
    (fun c hc => decide_eq_true fun hcc : c = '/' => hb (hcc ▸ List.mem_reverse.mp hc))
    (by decide)
  have hab : a.data.reverse = b.data.reverse := by rw [← ta, ← tb, hrev]
  have hab2 := congrArg List.reverse hab
  simpa using hab2

theorem get_daily_filename_inj {d1 d2 ext : String}
    (h : get_daily_filename d1 ext = get_daily_filename d2 ext) : d1 = d2 := by
  apply String.ext
  have hd := congrArg String.data h
  simp only [get_daily_filename, String.data_append, List.append_assoc] at hd
  have h1 := List.append_cancel_left hd
  rw [← List.append_assoc, ← List.append_assoc] at h1
  exact List.append_cancel_right (List.append_cancel_right h1)

theorem get_daily_filename_slashfree {d ext : String} (hd : '/' ∉ d.data)
    (hext : '/' ∉ ext.data) : '/' ∉ (get_daily_filename d ext).data := by
  intro h
  simp only [get_daily_filename, String.data_append, List.mem_append] at h
  rcases h with ((h | h) | h) | h
  · exact absurd h (by decide)
  · exact hd h
  · exact absurd h (by decide)
  · exact hext h

theorem mem_get_output_paths {fs : MediaFS} {cwd date ext p : String}
    (h : p ∈ get_output_paths fs cwd date ext) :
    ∃ x, p = x ++ "/" ++ get_daily_filename date ext := by
  cases hu : get_usb_mount_point fs with
  | none =>
    simp only [get_output_paths, hu, List.mem_singleton] at h
    exact ⟨cwd, h⟩
  | some m =>
    simp only [get_output_paths, hu, List.mem_cons, List.mem_singleton] at h
    rcases h with h | h
    · exact ⟨cwd, h⟩
    · rcases h with h | h
      · exact ⟨m, h⟩
      · cases h

theorem paths_disjoint {fs1 fs2 : MediaFS} {cwd d1 d2 ext : String}
    (hne : d1 ≠ d2) (h1 : '/' ∉ d1.data) (h2 : '/' ∉ d2.data) (hext : '/' ∉ ext.data)
    {p : String} (hp : p ∈ get_output_paths fs1 cwd d1 ext) :
    p ∉ get_output_paths fs2 cwd d2 ext := by
  intro hq
  obtain ⟨x, hx⟩ := mem_get_output_paths hp
  obtain ⟨y, hy⟩ := mem_get_output_paths hq
  exact hne (get_daily_filename_inj
    (last_component_eq (get_daily_filename_slashfree h1 hext)
      (get_daily_filename_slashfree h2 hext) (hx.symm.trans hy)))

/-! ### Store initialisation touches no csv content -/

theorem csvAt_foldl_init_csv (paths : List String) (q : String) :
    ∀ d : Disk, (paths.foldl initialize_csv d).csvAt q = d.csvAt q := by
  induction paths with
  | nil => intro d; rfl
  | cons p rest ih => intro d; rw [List.foldl_cons, ih, csvAt_initialize_csv]

theorem csvAt_foldl_init_excel (paths : List String) (q : String) :
    ∀ d : Disk, (paths.foldl initialize_excel d).csvAt q = d.csvAt q := by
  induction paths with
  | nil => intro d; rfl
  | cons p rest ih => intro d; rw [List.foldl_cons, ih, csvAt_initialize_excel]

theorem csvExists_foldl_init_excel (paths : List String) (q : String) :
    ∀ d : Disk, (paths.foldl initialize_excel d).csvExists q = d.csvExists q := by
  induction paths with
  | nil => intro d; rfl
  | cons p rest ih => intro d; rw [List.foldl_cons, ih, csvExists_initialize_excel]

theorem csvExists_initialize_csv_of_true (d : Disk) (p q : String)
    (h : d.csvExists q = true) : (initialize_csv d p).csvExists q = true := by
  rw [csvExists_initialize_csv]
  by_cases hpq : p = q <;> simp [hpq, h]

theorem csvExists_foldl_init_csv_of_true (paths : List String) (q : String) :
    ∀ d : Disk, d.csvExists q = true →
      (paths.foldl initialize_csv d).csvExists q = true := by
  induction paths with
  | nil => intro d h; exact h
  | cons p rest ih =>
    intro d h
    rw [List.foldl_cons]
    exact ih _ (csvExists_initialize_csv_of_true d p q h)

theorem csvExists_foldl_init_csv_mem (paths : List String) (q : String)
    (hq : q ∈ paths) :
    ∀ d : Disk, (paths.foldl initialize_csv d).csvExists q = true := by
  induction paths with
  | nil => cases hq
  | cons p rest ih =>
    intro d
    rw [List.foldl_cons]
    rcases List.mem_cons.mp hq with h | h
    · subst h
      apply csvExists_foldl_init_csv_of_true
      rw [csvExists_initialize_csv, if_pos rfl]
    · exact ih h _

theorem csvExists_foldl_save (paths : List String) (ws : Worksheet) (q : String) :
    ∀ d : Disk, (paths.foldl (fun d p => save_excel d p ws) d).csvExists q =
      d.csvExists q := by
  induction paths with
  | nil => intro d; rfl
  | cons p rest ih => intro d; rw [List.foldl_cons, ih, csvExists_save_excel]

theorem csvExists_foldl_append_of_true (paths : List String) (rows : List CsvRow)
    (q : String) :
    ∀ d : Disk, d.csvExists q = true →
      (paths.foldl (fun d p => append_csv d p rows) d).csvExists q = true := by
  induction paths with
  | nil => intro d h; exact h
  | cons p rest ih =>
    intro d h
    rw [List.foldl_cons]
    apply ih
    rw [csvExists_append_csv]
    by_cases hpq : p = q <;> simp [hpq, h]

/-! ### Unfolding the loop -/

theorem runLoop_tick (cwd : String) (s : LoopState) (t : Tick) (rest : List Event) :
    runLoop cwd s (Event.tick t :: rest) =
      if (iterate cwd s t).2.isSome then ((iterate cwd s t).1, StopReason.faulted)
      else runLoop cwd (iterate cwd s t).1 rest := rfl

theorem mainRun_interrupted (env : Env) (S : LoopState)
    (h : runLoop env.cwd (initState env) env.events = (S, StopReason.interrupted)) :
    mainRun env =
      (finallyBlock { S with log := S.log ++ ["Stopping monitoring and saving data"] }
        env.shutFailExcel env.shutFailCsv, StopReason.interrupted) := by
  simp only [mainRun, h]

theorem mainRun_faulted (env : Env) (S : LoopState)
    (h : runLoop env.cwd (initState env) env.events = (S, StopReason.faulted)) :
    mainRun env =
      (finallyBlock { S with log := S.log ++ ["Unexpected error"] }
        env.shutFailExcel env.shutFailCsv, StopReason.faulted) := by
  simp only [mainRun, h]

/-! ### C4 — the rotation boundary -/

/-- C4: on a date-change iteration whose writes succeed (resolved path lists
duplicate-free, dates slash-free as `strftime` produces them), exactly one
flush of the buffer is written against the outgoing day's destinations —
their files gain exactly the buffered rows, and nothing when the buffer is
empty — after which the destinations are re-resolved for the new date, the
new day's stores are initialised without overwriting (their prior rows are
preserved), and the only rows the new day's stores gain in this iteration
come from the reading parsed after the rotation, never from the
pre-rotation buffer. -/
theorem rotation_boundary (cwd : String) (s : LoopState) (t : Tick) (fs0 : MediaFS)
    (hrot : t.date ≠ s.currentDate)
    (hE : ∀ p, t.failExcelSave p = false) (hC : ∀ p, t.failCsvWrite p = false)
    (hcsv : s.csvPaths = get_output_paths fs0 cwd s.currentDate "csv")
    (hndOld : s.csvPaths.Nodup)
    (hndNew : (get_output_paths t.fsMedia cwd t.date "csv").Nodup)
    (hd1 : '/' ∉ s.currentDate.data) (hd2 : '/' ∉ t.date.data) :
    (iterate cwd s t).2 = none ∧
    (iterate cwd s t).1.currentDate = t.date ∧
    (iterate cwd s t).1.csvPaths = get_output_paths t.fsMedia cwd t.date "csv" ∧
    (iterate cwd s t).1.excelPaths = get_output_paths t.fsMedia cwd t.date "xlsx" ∧
    (∀ p ∈ s.csvPaths, (iterate cwd s t).1.disk.csvAt p = s.disk.csvAt p ++ s.buffer) ∧
    (∀ p ∈ get_output_paths t.fsMedia cwd t.date "csv",
      (iterate cwd s t).1.disk.csvExists p = true ∧
      (iterate cwd s t).1.disk.csvAt p =
        s.disk.csvAt p ++
          (if t.flushDue then
            (if t.line ≠ "" then (process_sensor_data t.line t.now).toList else [])
          else [])) := by
  have hext : '/' ∉ ("csv" : String).data := by decide
  have hOldNotNew : ∀ p ∈ s.csvPaths, p ∉ get_output_paths t.fsMedia cwd t.date "csv" := by
    intro p hp
    rw [hcsv] at hp
    exact paths_disjoint (fun h => hrot h.symm) hd1 hd2 hext hp
  have hNewNotOld : ∀ p ∈ get_output_paths t.fsMedia cwd t.date "csv",
      p ∉ s.csvPaths := by
    intro p hp hq
    exact hOldNotNew p hq hp
  -- the outgoing-day flush
  obtain ⟨S1, hS1eq, hS1buf, hS1old, hS1other⟩ :
      ∃ S1 : LoopState,
        (if s.buffer.isEmpty then ((s, none) : LoopState × Option String)
         else flushAttempt s t.failExcelSave t.failCsvWrite) = (S1, none) ∧
        S1.buffer = [] ∧
        (∀ p ∈ s.csvPaths, S1.disk.csvAt p = s.disk.csvAt p ++ s.buffer) ∧
        ((∀ p, p ∉ s.csvPaths → S1.disk.csvAt p = s.disk.csvAt p) ∧
          (∀ p, s.disk.csvExists p = true → S1.disk.csvExists p = true) ∧
          S1.currentDate = s.currentDate) := by
    by_cases hb : s.buffer.isEmpty
    · refine ⟨s, by rw [if_pos hb], List.isEmpty_iff.mp hb, ?_, ?_, ?_, rfl⟩
      · intro p hp; rw [List.isEmpty_iff.mp hb, List.append_nil]
      · intro p hp; rfl
      · intro p hp; exact hp
    · have hw := writeOut_nofail s t.failExcelSave t.failCsvWrite
        (fun p _ => hE p) (fun p _ => hC p)
      refine ⟨{ s with
          ws := update_minute_averages_table (s.ws.appendRows s.buffer)
          disk := s.csvPaths.foldl (fun d p => append_csv d p s.buffer)
            (s.excelPaths.foldl (fun d p => save_excel d p
              (update_minute_averages_table (s.ws.appendRows s.buffer))) s.disk)
          buffer := [] }, ?_, rfl, ?_, ?_, ?_, rfl⟩
      · rw [if_neg hb, flushAttempt_eq, hw]
        simp
      · intro p hp
        show (s.csvPaths.foldl (fun d p => append_csv d p s.buffer)
            (s.excelPaths.foldl (fun d p => save_excel d p
              (update_minute_averages_table (s.ws.appendRows s.buffer))) s.disk)).csvAt p =
          s.disk.csvAt p ++ s.buffer
        rw [csvAt_foldl_append_mem s.csvPaths s.buffer p hndOld hp, csvAt_foldl_save_excel]
      · intro p hp
        show (s.csvPaths.foldl (fun d p => append_csv d p s.buffer)
            (s.excelPaths.foldl (fun d p => save_excel d p
              (update_minute_averages_table (s.ws.appendRows s.buffer))) s.disk)).csvAt p =
          s.disk.csvAt p
        rw [csvAt_foldl_append_notmem s.csvPaths s.buffer p hp, csvAt_foldl_save_excel]
      · intro p hp
        show (s.csvPaths.foldl (fun d p => append_csv d p s.buffer)
            (s.excelPaths.foldl (fun d p => save_excel d p
              (update_minute_averages_table (s.ws.appendRows s.buffer))) s.disk)).csvExists p
          = true
        apply csvExists_foldl_append_of_true
        rw [csvExists_foldl_save]
        exact hp
  -- the state after the rotation proper
  have hrotstep : rotateStep cwd s t =
      ({ S1 with
          currentDate := t.date
          excelPaths := get_output_paths t.fsMedia cwd t.date "xlsx"
          csvPaths := get_output_paths t.fsMedia cwd t.date "csv"
          disk :=
            (get_output_paths t.fsMedia cwd t.date "csv").foldl initialize_csv
              ((get_output_paths t.fsMedia cwd t.date "xlsx").foldl initialize_excel
                S1.disk)
          ws :=
            load_excel
              ((get_output_paths t.fsMedia cwd t.date "csv").foldl initialize_csv
                ((get_output_paths t.fsMedia cwd t.date "xlsx").foldl initialize_excel
                  S1.disk))
              ((get_output_paths t.fsMedia cwd t.date "xlsx").headD "") }, none) := by
    rw [rotateStep, if_pos hrot, hS1eq, rotateFinish]
    simp
  -- csv facts of the initialised new-day disk
  have hD2old : ∀ p ∈ s.csvPaths, (rotateStep cwd s t).1.disk.csvAt p =
      s.disk.csvAt p ++ s.buffer := by
    intro p hp
    rw [hrotstep]
    show ((get_output_paths t.fsMedia cwd t.date "csv").foldl initialize_csv
        ((get_output_paths t.fsMedia cwd t.date "xlsx").foldl initialize_excel
          S1.disk)).csvAt p = s.disk.csvAt p ++ s.buffer
    rw [csvAt_foldl_init_csv, csvAt_foldl_init_excel]
    exact hS1old p hp
  have hD2new : ∀ p ∈ get_output_paths t.fsMedia cwd t.date "csv",
      (rotateStep cwd s t).1.disk.csvAt p = s.disk.csvAt p ∧
      (rotateStep cwd s t).1.disk.csvExists p = true := by
    intro p hp
    rw [hrotstep]
    constructor
    · show ((get_output_paths t.fsMedia cwd t.date "csv").foldl initialize_csv
          ((get_output_paths t.fsMedia cwd t.date "xlsx").foldl initialize_excel
            S1.disk)).csvAt p = s.disk.csvAt p
      rw [csvAt_foldl_init_csv, csvAt_foldl_init_excel]
      exact hS1other.1 p (hNewNotOld p hp)
    · show ((get_output_paths t.fsMedia cwd t.date "csv").foldl initialize_csv
          ((get_output_paths t.fsMedia cwd t.date "xlsx").foldl initialize_excel
            S1.disk)).csvExists p = true
      exact csvExists_foldl_init_csv_mem _ p hp _
  -- the read step
  have hb1 : (rotateStep cwd s t).1.buffer = [] := by rw [hrotstep]; exact hS1buf
  have hread : readStep t (rotateStep cwd s t).1 =
      { (rotateStep cwd s t).1 with
          buffer := if t.line ≠ "" then (process_sensor_data t.line t.now).toList else []
          log := (rotateStep cwd s t).1.log ++
            (if t.line ≠ "" ∧ process_sensor_data t.line t.now = none then
              ["Invalid data: " ++ t.line] else []) } := by
    rw [readStep]
    by_cases hl : t.line ≠ ""
    · rw [if_pos hl]
      cases hps : process_sensor_data t.line t.now with
      | some rd => simp [hl, hps, hb1]
      | none => simp [hl, hps, hb1]
    · rw [if_neg hl]
      simp only [hl, if_false, ne_eq, not_false_eq_true, not_true_eq_false, false_and,
        List.append_nil, ite_false]
      rw [← hb1]
  -- facts about the state after the read step
  have hS2buf : (readStep t (rotateStep cwd s t).1).buffer =
      (if t.line ≠ "" then (process_sensor_data t.line t.now).toList else []) := by
    rw [hread]
  have hS2date : (readStep t (rotateStep cwd s t).1).currentDate = t.date := by
    rw [hread]
    show (rotateStep cwd s t).1.currentDate = t.date
    rw [hrotstep]
  have hS2csv : (readStep t (rotateStep cwd s t).1).csvPaths =
      get_output_paths t.fsMedia cwd t.date "csv" := by
    rw [hread]
    show (rotateStep cwd s t).1.csvPaths = _
    rw [hrotstep]
  have hS2x : (readStep t (rotateStep cwd s t).1).excelPaths =
      get_output_paths t.fsMedia cwd t.date "xlsx" := by
    rw [hread]
    show (rotateStep cwd s t).1.excelPaths = _
    rw [hrotstep]
  have hS2disk : (readStep t (rotateStep cwd s t).1).disk = (rotateStep cwd s t).1.disk := by
    rw [hread]
  have hiter : iterate cwd s t = timedFlush t (readStep t (rotateStep cwd s t).1) := by
    rw [iterate, hrotstep]
    simp
  by_cases hfd :
      (t.flushDue && !(readStep t (rotateStep cwd s t).1).buffer.isEmpty) = true
  · -- the interval-gated flush runs against the new day's destinations
    have hfdu : t.flushDue = true := by
      have h := hfd
      simp only [Bool.and_eq_true] at h
      exact h.1
    have hw2 := writeOut_nofail (readStep t (rotateStep cwd s t).1)
      t.failExcelSave t.failCsvWrite (fun p _ => hE p) (fun p _ => hC p)
    have hfinal : iterate cwd s t =
        ({ readStep t (rotateStep cwd s t).1 with
            ws := update_minute_averages_table
              ((readStep t (rotateStep cwd s t).1).ws.appendRows
                (readStep t (rotateStep cwd s t).1).buffer)
            disk := (readStep t (rotateStep cwd s t).1).csvPaths.foldl
              (fun d p => append_csv d p (readStep t (rotateStep cwd s t).1).buffer)
              ((readStep t (rotateStep cwd s t).1).excelPaths.foldl
                (fun d p => save_excel d p (update_minute_averages_table
                  ((readStep t (rotateStep cwd s t).1).ws.appendRows
                    (readStep t (rotateStep cwd s t).1).buffer)))
                (readStep t (rotateStep cwd s t).1).disk)
            buffer := [] }, none) := by
      rw [hiter, timedFlush, if_pos hfd, flushAttempt_eq, hw2]
      simp
    refine ⟨by rw [hfinal], by rw [hfinal]; exact hS2date, by rw [hfinal]; exact hS2csv,
      by rw [hfinal]; exact hS2x, ?_, ?_⟩
    · intro p hp
      rw [hfinal]
      show ((readStep t (rotateStep cwd s t).1).csvPaths.foldl
          (fun d q => append_csv d q (readStep t (rotateStep cwd s t).1).buffer)
          ((readStep t (rotateStep cwd s t).1).excelPaths.foldl
            (fun d q => save_excel d q (update_minute_averages_table
              ((readStep t (rotateStep cwd s t).1).ws.appendRows
                (readStep t (rotateStep cwd s t).1).buffer)))
            (readStep t (rotateStep cwd s t).1).disk)).csvAt p =
        s.disk.csvAt p ++ s.buffer
      rw [hS2csv, csvAt_foldl_append_notmem _ _ p (hOldNotNew p hp),
        csvAt_foldl_save_excel, hS2disk]
      exact hD2old p hp
    · intro p hp
      rw [hfinal]
      constructor
      · show ((readStep t (rotateStep cwd s t).1).csvPaths.foldl
            (fun d q => append_csv d q (readStep t (rotateStep cwd s t).1).buffer)
            ((readStep t (rotateStep cwd s t).1).excelPaths.foldl
              (fun d q => save_excel d q (update_minute_averages_table
                ((readStep t (rotateStep cwd s t).1).ws.appendRows
                  (readStep t (rotateStep cwd s t).1).buffer)))
              (readStep t (rotateStep cwd s t).1).disk)).csvExists p = true
        apply csvExists_foldl_append_of_true
        rw [csvExists_foldl_save, hS2disk]
        exact (hD2new p hp).2
      · show ((readStep t (rotateStep cwd s t).1).csvPaths.foldl
            (fun d q => append_csv d q (readStep t (rotateStep cwd s t).1).buffer)
            ((readStep t (rotateStep cwd s t).1).excelPaths.foldl
              (fun d q => save_excel d q (update_minute_averages_table
                ((readStep t (rotateStep cwd s t).1).ws.appendRows
                  (readStep t (rotateStep cwd s t).1).buffer)))
              (readStep t (rotateStep cwd s t).1).disk)).csvAt p =
          s.disk.csvAt p ++ _
        rw [hS2csv, csvAt_foldl_append_mem _ _ p hndNew hp, csvAt_foldl_save_excel,
          hS2disk, (hD2new p hp).1, hS2buf, if_pos hfdu]
  · -- no interval flush this iteration
    have hfinal : iterate cwd s t = (readStep t (rotateStep cwd s t).1, none) := by
      rw [hiter, timedFlush, if_neg hfd]
    have htail :
        (if t.flushDue then
          (if t.line ≠ "" then (process_sensor_data t.line t.now).toList else [])
        else ([] : List (String × PyFloat))) = [] := by
      cases hfdu : t.flushDue with
      | false => rw [if_neg (by simp [hfdu])]
      | true =>
        rw [hfdu] at hfd
        simp only [Bool.true_and, Bool.not_eq_true'] at hfd
        have : (readStep t (rotateStep cwd s t).1).buffer = [] :=
          List.isEmpty_iff.mp (by simpa using hfd)
        rw [hS2buf] at this
        rw [if_pos rfl, this]
    refine ⟨by rw [hfinal], by rw [hfinal]; exact hS2date, by rw [hfinal]; exact hS2csv,
      by rw [hfinal]; exact hS2x, ?_, ?_⟩
    · intro p hp
      rw [hfinal]
      show (readStep t (rotateStep cwd s t).1).disk.csvAt p = s.disk.csvAt p ++ s.buffer
      rw [hS2disk]
      exact hD2old p hp
    · intro p hp
      rw [hfinal]
      refine ⟨?_, ?_⟩
      · show (readStep t (rotateStep cwd s t).1).disk.csvExists p = true
        rw [hS2disk]
        exact (hD2new p hp).2
      · show (readStep t (rotateStep cwd s t).1).disk.csvAt p = s.disk.csvAt p ++ _
        rw [hS2disk, (hD2new p hp).1, htail, List.append_nil]

/-- Witness for C4 at a concrete date-change iteration. -/
theorem rotation_boundary_witness :
    (iterate "/home/pi" stPreRotation tickRotate).2 = none ∧
      (iterate "/home/pi" stPreRotation tickRotate).1.disk.csvAt
          "/home/pi/pressure_2024-01-01.csv" =
        stPreRotation.disk.csvAt "/home/pi/pressure_2024-01-01.csv" ++
          stPreRotation.buffer ∧
      (iterate "/home/pi" stPreRotation tickRotate).1.disk.csvExists
          "/home/pi/pressure_2024-01-02.csv" = true := by
  have h := rotation_boundary "/home/pi" stPreRotation tickRotate fsNoUsb
    (by decide) (fun p => rfl) (fun p => rfl) rfl (by decide) (by decide)
    (by decide) (by decide)
  exact ⟨h.1, h.2.2.2.2.1 _ (by decide), (h.2.2.2.2.2 _ (by decide)).1⟩

/-! ### C3 — behaviour on the operator's interrupt -/

/-- C3 counterexample: a run interrupted with a non-empty buffer in which
the primary workbook save fails during the shutdown flush — the buffered
reading reaches no raw store and `ser.close()` at line 245 is never
executed, because the exception raised inside `finally` aborts it. -/
theorem interrupt_shutdown_failure_counterexample :
    (mainRun envInterruptFail).2 = StopReason.interrupted ∧
      (runLoop envInterruptFail.cwd (initState envInterruptFail)
        envInterruptFail.events).1.buffer ≠ [] ∧
      (mainRun envInterruptFail).1.serialOpen = true ∧
      (mainRun envInterruptFail).1.disk.csvAt "/home/pi/pressure_2024-01-01.csv" = [] :=
  ⟨by decide, by decide, by decide, by decide⟩

/-- C3 amended: provided the final flush's writes succeed, a run interrupted
by the operator appends every buffered reading (in order, as a suffix) to
every resolved raw csv destination by one final forced flush and releases
the transport handle before exit; if a write of that final flush fails, the
in-flight buffer may be lost and the handle is not explicitly released. -/
theorem interrupt_flushes_and_closes (env : Env) (S : LoopState)
    (hrun : runLoop env.cwd (initState env) env.events = (S, StopReason.interrupted))
    (hE : ∀ p, env.shutFailExcel p = false) (hC : ∀ p, env.shutFailCsv p = false) :
    (mainRun env).2 = StopReason.interrupted ∧
      (mainRun env).1.serialOpen = false ∧
      ∀ p ∈ S.csvPaths, S.buffer <:+ (mainRun env).1.disk.csvAt p := by
  rw [mainRun_interrupted env S hrun]
  refine ⟨rfl, ?_, ?_⟩
  · show (finallyBlock _ _ _).serialOpen = false
    rw [finallyBlock_eq]
    split
    · rfl
    · rw [writeOut_nofail _ _ _ (fun q _ => hE q) (fun q _ => hC q)]
      simp
  · intro p hp
    show S.buffer <:+ (finallyBlock _ _ _).disk.csvAt p
    rw [finallyBlock_eq]
    split
    · rename_i hb
      have hbe : S.buffer = [] := List.isEmpty_iff.mp hb
      rw [hbe]
      exact List.nil_suffix
    · rw [writeOut_nofail _ _ _ (fun q _ => hE q) (fun q _ => hC q)]
      simp only [Option.isSome_none, Bool.false_eq_true, if_false]
      show S.buffer <:+
        (({ S with log := S.log ++ ["Stopping monitoring and saving data"] }).csvPaths.foldl
          (fun d q => append_csv d q S.buffer)
          (({ S with log := S.log ++ ["Stopping monitoring and saving data"] }).excelPaths.foldl
            (fun d q => save_excel d q (update_minute_averages_table
              (S.ws.appendRows S.buffer))) S.disk)).csvAt p
    -- the buffered rows are appended once per csv destination, so they end
    -- the file at every one of them
      exact csvAt_foldl_append_suffix _ S.buffer p hp _

/-- Witness for C3's amended claim: the one-reading interrupted run with
healthy shutdown writes. -/
theorem interrupt_flushes_and_closes_witness :
    (mainRun envInterruptOk).2 = StopReason.interrupted ∧
      (mainRun envInterruptOk).1.serialOpen = false ∧
      ∀ p ∈ (runLoop envInterruptOk.cwd (initState envInterruptOk)
          envInterruptOk.events).1.csvPaths,
        (runLoop envInterruptOk.cwd (initState envInterruptOk)
          envInterruptOk.events).1.buffer <:+ (mainRun envInterruptOk).1.disk.csvAt p :=
  interrupt_flushes_and_closes envInterruptOk
    (runLoop envInterruptOk.cwd (initState envInterruptOk) envInterruptOk.events).1
    (by decide) (fun p => rfl) (fun p => rfl)

/-! ### C7 — behaviour on an unexpected exception -/

theorem writeOut_log (s : LoopState) (failE failC : String → Bool) :
    (writeOut s failE failC).1.log = s.log := by
  rw [writeOut_eq]
  split <;> rfl

/-- C7 counterexample: the handler for generic exceptions sits outside the
`while` loop, so a fault during one iteration ends the run: the loop state
freezes and the pending next iteration — which would have buffered a
reading — is never processed, contradicting "the loop continues to the next
iteration". -/
theorem fault_terminates_loop_counterexample :
    (runLoop envFault.cwd (initState envFault) envFault.events).2 =
        StopReason.faulted ∧
      (runLoop envFault.cwd (initState envFault) envFault.events).1 =
        initState envFault ∧
      (iterate envFault.cwd (initState envFault) tickRead).1.buffer ≠
        (initState envFault).buffer :=
  ⟨by decide, by decide, by decide⟩

/-- C7 amended: an exception other than `KeyboardInterrupt` during a loop
iteration is caught by the handler around the loop and logged, but the loop
terminates rather than continuing: one final flush is attempted for any
buffered readings and the process exits. -/
theorem fault_caught_logged_and_exits (env : Env) (S : LoopState)
    (hrun : runLoop env.cwd (initState env) env.events = (S, StopReason.faulted)) :
    (mainRun env).2 = StopReason.faulted ∧
      "Unexpected error" ∈ (mainRun env).1.log := by
  rw [mainRun_faulted env S hrun]
  refine ⟨rfl, ?_⟩
  show "Unexpected error" ∈ (finallyBlock _ _ _).log
  rw [finallyBlock_eq]
  split
  · simp
  · split
    · rw [writeOut_log]
      simp
    · show "Unexpected error" ∈ (writeOut _ _ _).1.log ++ _
      rw [writeOut_log]
      simp

/-- Witness for C7's amended claim at the faulting run. -/
theorem fault_caught_logged_and_exits_witness :
    (mainRun envFault).2 = StopReason.faulted ∧
      "Unexpected error" ∈ (mainRun envFault).1.log :=
  fault_caught_logged_and_exits envFault
    (runLoop envFault.cwd (initState envFault) envFault.events).1 (by decide)

end RpiWps
